import Mathlib

/-!
Verification development for the avatar-cli repository.

The definitions below are a shallow embedding of the Rust sources under
src/: `project_config.rs`, `subcommands/install.rs`, `subcommands/run.rs`,
`docker.rs` and `directories.rs`.  Rust `BTreeMap` values are modelled as
association lists (`List (String × α)`) ordered by sorted insertion,
`BTreeSet` values as `List String` with membership-faithful union, byte
strings as `List Nat` (each entry < 256), and file-system paths as plain
strings (for `project_config.rs`) or component lists (for the path
arithmetic in `run.rs`).  External subprocess calls (the container
runtime) and the YAML codec are modelled as explicit oracle parameters.
Process exits become `Except ExitErr` results carrying the sysexits code
and the diagnostic message (apostrophes of the original messages are
dropped).  SHA-256 is implemented concretely and is executable by the
kernel.
-/

set_option maxRecDepth 20000

namespace Avatar

/-! ## Byte-level primitives: SHA-256, hex, UTF-8 -/

/-- Bitwise xor of the low `k` bits of two naturals, structural in `k`. -/
def bitsXor : Nat → Nat → Nat → Nat
  | 0, _, _ => 0
  | k+1, a, b => ((a + b) % 2) + 2 * bitsXor k (a / 2) (b / 2)

/-- Bitwise and of the low `k` bits of two naturals, structural in `k`. -/
def bitsAnd : Nat → Nat → Nat → Nat
  | 0, _, _ => 0
  | k+1, a, b => ((a % 2) * (b % 2)) + 2 * bitsAnd k (a / 2) (b / 2)

def xor32 (a b : Nat) : Nat := bitsXor 32 a b

def and32 (a b : Nat) : Nat := bitsAnd 32 a b

def not32 (a : Nat) : Nat := 4294967295 - a % 4294967296

def rotr32 (k a : Nat) : Nat := (a / 2 ^ k + a * 2 ^ (32 - k)) % 4294967296

def shr32 (k a : Nat) : Nat := a / 2 ^ k

def add32 (a b : Nat) : Nat := (a + b) % 4294967296

def ssig0 (w : Nat) : Nat := xor32 (xor32 (rotr32 7 w) (rotr32 18 w)) (shr32 3 w)

def ssig1 (w : Nat) : Nat := xor32 (xor32 (rotr32 17 w) (rotr32 19 w)) (shr32 10 w)

def bsig0 (a : Nat) : Nat := xor32 (xor32 (rotr32 2 a) (rotr32 13 a)) (rotr32 22 a)

def bsig1 (e : Nat) : Nat := xor32 (xor32 (rotr32 6 e) (rotr32 11 e)) (rotr32 25 e)

def chv (e f g : Nat) : Nat := xor32 (and32 e f) (and32 (not32 e) g)

def majv (a b c : Nat) : Nat := xor32 (xor32 (and32 a b) (and32 a c)) (and32 b c)

def sha256K : List Nat :=
  [1116352408, 1899447441, 3049323471, 3921009573, 961987163, 1508970993,
   2453635748, 2870763221, 3624381080, 310598401, 607225278, 1426881987,
   1925078388, 2162078206, 2614888103, 3248222580, 3835390401, 4022224774,
   264347078, 604807628, 770255983, 1249150122, 1555081692, 1996064986,
   2554220882, 2821834349, 2952996808, 3210313671, 3336571891, 3584528711,
   113926993, 338241895, 666307205, 773529912, 1294757372, 1396182291,
   1695183700, 1986661051, 2177026350, 2456956037, 2730485921, 2820302411,
   3259730800, 3345764771, 3516065817, 3600352804, 4094571909, 275423344,
   430227734, 506948616, 659060556, 883997877, 958139571, 1322822218,
   1537002063, 1747873779, 1955562222, 2024104815, 2227730452, 2361852424,
   2428436474, 2756734187, 3204031479, 3329325298]

structure Hash8 where
  a : Nat
  b : Nat
  c : Nat
  d : Nat
  e : Nat
  f : Nat
  g : Nat
  h : Nat
deriving DecidableEq, Repr

def initH : Hash8 :=
  ⟨1779033703, 3144134277, 1013904242, 2773480762, 1359893119, 2600822924, 528734635, 1541459225⟩

/-- Big-endian 8-byte encoding of the bit length. -/
def lenBytes (bitLen : Nat) : List Nat :=
  [56, 48, 40, 32, 24, 16, 8, 0].map (fun s => bitLen / 2 ^ s % 256)

def padMessage (msg : List Nat) : List Nat :=
  let len := msg.length
  let z := (120 - ((len + 1) % 64)) % 64
  msg ++ [128] ++ List.replicate z 0 ++ lenBytes (8 * len)

/-- Group bytes into big-endian 32-bit words. -/
def toWords : List Nat → List Nat
  | b0 :: b1 :: b2 :: b3 :: rest => (((b0 * 256 + b1) * 256 + b2) * 256 + b3) :: toWords rest
  | _ => []

/-- Extend the 16-word schedule by `k` further words. -/
def extendW : Nat → List Nat → List Nat
  | 0, w => w
  | k+1, w =>
    let n := w.length
    let wi := add32 (add32 (w.getD (n - 16) 0) (ssig0 (w.getD (n - 15) 0)))
                    (add32 (w.getD (n - 7) 0) (ssig1 (w.getD (n - 2) 0)))
    extendW k (w ++ [wi])

def rounds : List Nat → List Nat → Hash8 → Hash8
  | kc :: ks, wc :: ws, s =>
    let t1 := add32 s.h (add32 (bsig1 s.e) (add32 (chv s.e s.f s.g) (add32 kc wc)))
    let t2 := add32 (bsig0 s.a) (majv s.a s.b s.c)
    rounds ks ws ⟨add32 t1 t2, s.a, s.b, s.c, add32 s.d t1, s.e, s.f, s.g⟩
  | _, _, s => s

def compressBlock (s : Hash8) (block : List Nat) : Hash8 :=
  let w := extendW 48 (toWords block)
  let r := rounds sha256K w s
  ⟨add32 s.a r.a, add32 s.b r.b, add32 s.c r.c, add32 s.d r.d,
   add32 s.e r.e, add32 s.f r.f, add32 s.g r.g, add32 s.h r.h⟩

def processBlocks : Nat → List Nat → Hash8 → Hash8
  | 0, _, s => s
  | n+1, msg, s => processBlocks n (msg.drop 64) (compressBlock s (msg.take 64))

def wordBytes (w : Nat) : List Nat :=
  [w / 16777216 % 256, w / 65536 % 256, w / 256 % 256, w % 256]

/-- SHA-256 of a byte list (each entry < 256), as a list of 32 bytes.  This
models the `ring` crate digest used by the sources (an external, assumed
primitive); it matches the standard test vectors. -/
def sha256 (msg : List Nat) : List Nat :=
  let padded := padMessage msg
  let s := processBlocks (padded.length / 64) padded initH
  ([s.a, s.b, s.c, s.d, s.e, s.f, s.g, s.h]).flatMap wordBytes

def hexDigit (n : Nat) : Char :=
  (String.toList "0123456789abcdef").getD n '0'

def hexOfByte (b : Nat) : List Char := [hexDigit (b / 16), hexDigit (b % 16)]

/-- Model of the hex crate encoder used for volume-name hashes. -/
def hexEncode (bytes : List Nat) : String := String.mk (bytes.flatMap hexOfByte)

/-- UTF-8 encoding of one character, by the standard range formulas. -/
def utf8Char (c : Char) : List Nat :=
  let n := c.toNat
  if n < 128 then [n]
  else if n < 2048 then [192 + n / 64, 128 + n % 64]
  else if n < 65536 then [224 + n / 4096, 128 + n / 64 % 64, 128 + n % 64]
  else [240 + n / 262144, 128 + n / 4096 % 64, 128 + n / 64 % 64, 128 + n % 64]

/-- UTF-8 bytes of a string, as hashed by the sources. -/
def utf8Bytes (s : String) : List Nat := s.data.flatMap utf8Char

/-- Kernel-reducible model of Path::is_relative on Unix: a path is relative
iff it does not start with a slash. -/
def path_is_relative (p : String) : Bool :=
  match p.data with
  | [] => true
  | c :: _ => !(c == '/')

/-- Kernel-reducible model of str::replace with a one-character pattern. -/
def replace_char (s : String) (c r : Char) : String :=
  String.mk (s.data.map (fun x => if x = c then r else x))

def splitOnCharAux (c : Char) : List Char → List Char → List String
  | [], acc => [String.mk acc.reverse]
  | x :: xs, acc =>
    if x = c then String.mk acc.reverse :: splitOnCharAux c xs []
    else splitOnCharAux c xs (x :: acc)

/-- Kernel-reducible model of str::split on a one-character separator
(keeps empty fields, like the Rust iterator). -/
def splitOnChar (c : Char) (s : String) : List String := splitOnCharAux c s.data []

def isSpaceChar (c : Char) : Bool :=
  c == ' ' || c == Char.ofNat 9 || c == Char.ofNat 10 || c == Char.ofNat 13

/-- Kernel-reducible model of str::trim (ASCII whitespace suffices here). -/
def trimChars (s : String) : String :=
  String.mk (((s.data.dropWhile isSpaceChar).reverse.dropWhile isSpaceChar).reverse)

/-! ## Association-list model of `BTreeMap` and `BTreeSet` -/

/-- Lookup by key in an association list (first match). -/
def slookup {α : Type} (k : String) : List (String × α) → Option α
  | [] => none
  | (j, v) :: rest => if k = j then some v else slookup k rest

/-- Key-based insert replacing an existing binding, the `BTreeMap::insert`
model.  The sorted iteration order of the Rust map is not modelled (maps
are treated up to permutation; no claim observes iteration order), so the
insert replaces in place or appends. -/
def btreeInsert {α : Type} (k : String) (v : α) : List (String × α) → List (String × α)
  | [] => [(k, v)]
  | (j, w) :: rest =>
    if k = j then (k, v) :: rest
    else (j, w) :: btreeInsert k v rest

/-- Insert every binding of `news` into `base`, the model of the source
pattern `let mut merged = base.clone(); for (k, v) in new: merged.insert`. -/
def insertAll {α : Type} (news base : List (String × α)) : List (String × α) :=
  news.foldl (fun acc kv => btreeInsert kv.1 kv.2 acc) base

/-- First-of-two option combinator (left value wins). -/
def oelse {α : Type} : Option α → Option α → Option α
  | some v, _ => some v
  | none, b => b

def mapKeys {α : Type} (l : List (String × α)) : List String := l.map Prod.fst

/-- Membership-faithful model of `BTreeSet::union`. -/
def setUnion (base news : List String) : List String :=
  base ++ news.filter (fun x => !(base.contains x))

@[simp] theorem oelse_none_left {α : Type} (b : Option α) : oelse none b = b := rfl

@[simp] theorem oelse_some {α : Type} (v : α) (b : Option α) : oelse (some v) b = some v := rfl

@[simp] theorem oelse_none_right {α : Type} (a : Option α) : oelse a none = a := by
  cases a <;> rfl

@[simp] theorem slookup_nil {α : Type} (k : String) : slookup k ([] : List (String × α)) = none := rfl

theorem slookup_btreeInsert_self {α : Type} (k : String) (v : α) (m : List (String × α)) :
    slookup k (btreeInsert k v m) = some v := by
  induction m with
  | nil => simp [btreeInsert, slookup]
  | cons hd tl ih =>
    obtain ⟨j, w⟩ := hd
    by_cases h1 : k = j
    · simp [btreeInsert, h1, slookup]
    · simp [btreeInsert, h1, slookup, ih]

theorem slookup_btreeInsert_ne {α : Type} {i k : String} (hne : i ≠ k) (v : α)
    (m : List (String × α)) : slookup i (btreeInsert k v m) = slookup i m := by
  induction m with
  | nil => simp [btreeInsert, slookup, hne]
  | cons hd tl ih =>
    obtain ⟨j, w⟩ := hd
    by_cases h1 : k = j
    · subst h1
      simp [btreeInsert, slookup, hne]
    · by_cases h2 : i = j
      · simp [btreeInsert, h1, slookup, h2]
      · simp [btreeInsert, h1, slookup, h2, ih]

theorem slookup_eq_none_of_not_mem {α : Type} {k : String} {m : List (String × α)}
    (h : k ∉ mapKeys m) : slookup k m = none := by
  induction m with
  | nil => rfl
  | cons hd tl ih =>
    obtain ⟨j, w⟩ := hd
    simp only [mapKeys, List.map_cons, List.mem_cons] at h
    push_neg at h
    simp [slookup, h.1, ih (by simpa [mapKeys] using h.2)]

theorem slookup_insertAll {α : Type} (k : String) (news base : List (String × α))
    (hn : (mapKeys news).Nodup) :
    slookup k (insertAll news base) = oelse (slookup k news) (slookup k base) := by
  induction news generalizing base with
  | nil => simp [insertAll]
  | cons hd tl ih =>
    obtain ⟨j, v⟩ := hd
    simp only [mapKeys, List.map_cons, List.nodup_cons] at hn
    have step : insertAll ((j, v) :: tl) base = insertAll tl (btreeInsert j v base) := rfl
    rw [step, ih _ hn.2]
    by_cases hkj : k = j
    · subst hkj
      have : slookup k tl = none :=
        slookup_eq_none_of_not_mem (by simpa [mapKeys] using hn.1)
      simp [this, slookup, slookup_btreeInsert_self]
    · rw [slookup_btreeInsert_ne hkj]
      simp [slookup, hkj]

theorem mem_keys_btreeInsert {α : Type} {j k : String} {v : α}
    {m : List (String × α)} (h : j ∈ mapKeys (btreeInsert k v m)) :
    j = k ∨ j ∈ mapKeys m := by
  induction m with
  | nil => simpa [btreeInsert, mapKeys] using h
  | cons hd tl ih =>
    obtain ⟨i, w⟩ := hd
    by_cases h1 : k = i
    · simp only [btreeInsert, if_pos h1, mapKeys, List.map_cons, List.mem_cons] at h
      rcases h with h | h
      · exact Or.inl h
      · exact Or.inr (by simpa [mapKeys] using Or.inr h)
    · simp only [btreeInsert, if_neg h1, mapKeys, List.map_cons, List.mem_cons] at h
      rcases h with h | h
      · exact Or.inr (by simp [mapKeys, h])
      · rcases ih (by simpa [mapKeys] using h) with h2 | h2
        · exact Or.inl h2
        · exact Or.inr (by simp [mapKeys]; right; simpa [mapKeys] using h2)

theorem nodup_btreeInsert {α : Type} {m : List (String × α)}
    (hm : (mapKeys m).Nodup) (k : String) (v : α) :
    (mapKeys (btreeInsert k v m)).Nodup := by
  induction m with
  | nil => simp [btreeInsert, mapKeys]
  | cons hd tl ih =>
    obtain ⟨i, w⟩ := hd
    simp only [mapKeys, List.map_cons, List.nodup_cons] at hm
    by_cases h1 : k = i
    · subst h1
      have hstep : btreeInsert k v ((k, w) :: tl) = (k, v) :: tl := by
        simp [btreeInsert]
      rw [hstep]
      simp only [mapKeys, List.map_cons, List.nodup_cons]
      exact ⟨by simpa [mapKeys] using hm.1, hm.2⟩
    · simp only [btreeInsert, if_neg h1, mapKeys, List.map_cons, List.nodup_cons]
      constructor
      · intro hmem
        rcases mem_keys_btreeInsert (by simpa [mapKeys] using hmem) with h2 | h2
        · exact h1 h2.symm
        · exact hm.1 (by simpa [mapKeys] using h2)
      · exact ih hm.2

theorem nodup_insertAll {α : Type} {base : List (String × α)}
    (hb : (mapKeys base).Nodup) (news : List (String × α)) :
    (mapKeys (insertAll news base)).Nodup := by
  induction news generalizing base with
  | nil => simpa [insertAll] using hb
  | cons hd tl ih =>
    exact ih (nodup_btreeInsert hb hd.1 hd.2)

/-! ## Data model of `project_config.rs` -/

/-- Environment mapping, the model of `BTreeMap<String, String>`. -/
abbrev EnvMap := List (String × String)

/-! Sysexits codes as used via the exitcode crate. -/

namespace Exitcode

def usage : Nat := 64
def dataerr : Nat := 65
def noinput : Nat := 66
def unavailable : Nat := 69
def software : Nat := 70
def oserr : Nat := 71
def cantcreat : Nat := 73
def ioerr : Nat := 74
def protocol : Nat := 76
def config : Nat := 78

end Exitcode

/-- Process termination modelled as an error value: exit code and message. -/
abbrev ExitErr := Nat × String

instance {e a : Type} [DecidableEq e] [DecidableEq a] : DecidableEq (Except e a)
  | .error x, .error y =>
    match decEq x y with
    | isTrue h => isTrue (by rw [h])
    | isFalse h => isFalse (fun hh => h (by injection hh))
  | .error _, .ok _ => isFalse (fun hh => Except.noConfusion hh)
  | .ok _, .error _ => isFalse (fun hh => Except.noConfusion hh)
  | .ok x, .ok y =>
    match decEq x y with
    | isTrue h => isTrue (by rw [h])
    | isFalse h => isFalse (fun hh => h (by injection hh))

def ERROR_MSG_FORBIDDEN_PATH_ENV_VAR : String :=
  "Passing a custom PATH environment variable is forbidden"

/-- Scope of a managed volume (src/src/project_config.rs lines 341-352). -/
inductive VolumeScope where
  | project
  | ociImage
  | binary
deriving DecidableEq, Repr

/-- Volume declaration in the manifest (lines 316-322). -/
structure VolumeConfig where
  name : Option String
  scope : VolumeScope
deriving DecidableEq, Repr

/-- Frozen volume entry in the lock (lines 324-339). -/
structure VolumeConfigLock where
  container_path : String
  volume_name : String
deriving DecidableEq, Repr

/-- Declarative run configuration (lines 86-94).  Container paths and host
paths are modelled as strings. -/
structure OCIContainerRunConfig where
  env : Option EnvMap
  env_from_host : Option (List String)
  extra_paths : Option (List String)
  volumes : Option (List (String × VolumeConfig))
  bindings : Option (List (String × String))
deriving DecidableEq, Repr

/-- Frozen run configuration (lines 118-126). -/
structure OCIContainerRunConfigLock where
  env : Option EnvMap
  env_from_host : Option (List String)
  extra_paths : Option (List String)
  volumes : Option (List VolumeConfigLock)
  bindings : Option (List (String × String))
deriving DecidableEq, Repr

/-- Project-level shell configuration (lines 299-314). -/
structure ShellConfig where
  env : Option EnvMap
  extra_paths : Option (List String)
deriving DecidableEq, Repr

/-- Per-binary manifest entry (lines 28-43). -/
structure ImageBinaryConfig where
  path : Option String
  run_config : Option OCIContainerRunConfig
deriving DecidableEq, Repr

/-- Per-tag manifest entry (lines 159-174). -/
structure OCIImageTagConfig where
  binaries : Option (List (String × ImageBinaryConfig))
  run_config : Option OCIContainerRunConfig
deriving DecidableEq, Repr

/-- Per-image manifest entry (lines 146-157). -/
structure OCIImageConfig where
  tags : List (String × OCIImageTagConfig)
  run_config : Option OCIContainerRunConfig
deriving DecidableEq, Repr

/-- The manifest document (lines 197-231). -/
structure ProjectConfig where
  avatar_version : String
  project_internal_id : String
  run_config : Option OCIContainerRunConfig
  shell_config : Option ShellConfig
  images : Option (List (String × OCIImageConfig))
deriving DecidableEq, Repr

/-- Per-tag lock entry (lines 176-195). -/
structure OCIImageTagConfigLock where
  hash : String
  run_config : Option OCIContainerRunConfig
deriving DecidableEq, Repr

/-- Per-binary lock entry (lines 45-84). -/
structure ImageBinaryConfigLock where
  oci_image_name : String
  oci_image_hash : String
  path : String
  run_config : Option OCIContainerRunConfigLock
deriving DecidableEq, Repr

/-- The lock and state documents (lines 233-297); the hash is raw bytes. -/
structure ProjectConfigLock where
  project_config_hash : List Nat
  project_internal_id : String
  shell_config : Option ShellConfig
  images : List (String × List (String × OCIImageTagConfigLock))
  binaries : List (String × ImageBinaryConfigLock)
deriving DecidableEq, Repr

/-! ## Functions of `project_config.rs` -/

/-- Lean model of check_against_forbidden_path_var (lines 357-379): each of
the three containment checks terminates the process with USAGE. -/
def check_against_forbidden_path_var (shell_config : ShellConfig)
    (run_config_lock : OCIContainerRunConfigLock) : Except ExitErr Unit :=
  if (shell_config.env.getD []).any (fun kv => kv.1 == "PATH") then
    .error (Exitcode.usage, ERROR_MSG_FORBIDDEN_PATH_ENV_VAR)
  else if (run_config_lock.env.getD []).any (fun kv => kv.1 == "PATH") then
    .error (Exitcode.usage, ERROR_MSG_FORBIDDEN_PATH_ENV_VAR)
  else if (run_config_lock.env_from_host.getD []).contains "PATH" then
    .error (Exitcode.usage, ERROR_MSG_FORBIDDEN_PATH_ENV_VAR)
  else .ok ()

/-- Lean model of customize_oci_image_path_env_var (lines 381-400).  A path
is relative iff it does not start with a slash; `Path::join` of the
playground base with a relative path concatenates with a slash; `to_str`
never fails in this string model. -/
def customize_oci_image_path_env_var (oci_image_path : String)
    (extra_paths : List String) : String :=
  let filtered_extra_paths := String.intercalate ":"
    ((extra_paths.filter path_is_relative).map (fun p => "/playground/" ++ p))
  filtered_extra_paths ++ ":" ++ oci_image_path

/-- Lean model of generate_volume_name (lines 428-466).  Note the slash to
dot replacement happens only in the OCIImage arm, and the explicit name
overrides synthesis. -/
def generate_volume_name (project_internal_id image_ref binary_name : String)
    (volume_config : VolumeConfig) (container_path : String) : String :=
  match volume_config.name with
  | some volume_name => volume_name
  | none =>
    let path_hash := hexEncode ((sha256 (utf8Bytes container_path)).take 16)
    match volume_config.scope with
    | .project => "prj_" ++ project_internal_id ++ "_" ++ path_hash
    | .ociImage =>
        "img_" ++ project_internal_id ++ "_" ++ (replace_char image_ref '/' '.') ++ "_" ++ path_hash
    | .binary =>
        "bin_" ++ project_internal_id ++ "_" ++ image_ref ++ "_" ++ binary_name ++ "_" ++ path_hash

/-- Lean model of generate_volume_config_lock (lines 402-426). -/
def generate_volume_config_lock (image_volume_configs : Option (List (String × VolumeConfig)))
    (project_internal_id image_ref binary_name : String) : Option (List VolumeConfigLock) :=
  match image_volume_configs with
  | some src =>
    some (src.map (fun kv =>
      ⟨kv.1, generate_volume_name project_internal_id image_ref binary_name kv.2 kv.1⟩))
  | none => none

/-- Lean model of merge_bindings (lines 559-576). -/
def merge_bindings (base_bindings new_bindings : Option (List (String × String))) :
    Option (List (String × String)) :=
  match base_bindings with
  | some b =>
    match new_bindings with
    | some n => some (insertAll n b)
    | none => some b
  | none => new_bindings

/-- Lean model of merge_envs (lines 578-595): clone the base and insert all
overlay entries, so overlay keys replace base keys. -/
def merge_envs (base_env new_env : Option EnvMap) : Option EnvMap :=
  match base_env with
  | some b =>
    match new_env with
    | some n => some (insertAll n b)
    | none => some b
  | none => new_env

/-- Lean model of merge_envs_from_host (lines 597-608). -/
def merge_envs_from_host (base_env new_env : Option (List String)) :
    Option (List String) :=
  match base_env with
  | some b =>
    match new_env with
    | some n => some (setUnion b n)
    | none => some b
  | none => new_env

/-- Lean model of merge_extra_paths (lines 610-623). -/
def merge_extra_paths (base_extra_paths new_extra_paths : Option (List String)) :
    Option (List String) :=
  match base_extra_paths with
  | some b =>
    match new_extra_paths with
    | some n => some (setUnion b n)
    | none => some b
  | none => new_extra_paths

/-- Lean model of merge_volumes (lines 777-809). -/
def merge_volumes (base_volumes new_volumes : Option (List (String × VolumeConfig)))
    (project_internal_id image_ref binary_name : String) : Option (List VolumeConfigLock) :=
  match base_volumes with
  | some b =>
    match new_volumes with
    | some n =>
      generate_volume_config_lock (some (insertAll n b)) project_internal_id image_ref binary_name
    | none =>
      generate_volume_config_lock base_volumes project_internal_id image_ref binary_name
  | none => generate_volume_config_lock new_volumes project_internal_id image_ref binary_name

/-- Lean model of merge_run_configs (lines 715-775).  The image ref used for
volume names is image_name and image_tag joined by a hyphen (line 723). -/
def merge_run_configs (base_config new_config : Option OCIContainerRunConfig)
    (project_internal_id image_name image_tag binary_name : String) :
    Option OCIContainerRunConfigLock :=
  let image_ref := image_name ++ "-" ++ image_tag
  match base_config with
  | some b =>
    match new_config with
    | some n =>
      some { bindings := merge_bindings b.bindings n.bindings
             volumes := merge_volumes b.volumes n.volumes project_internal_id image_ref binary_name
             env := merge_envs b.env n.env
             env_from_host := merge_envs_from_host b.env_from_host n.env_from_host
             extra_paths := merge_extra_paths b.extra_paths n.extra_paths }
    | none =>
      some { bindings := b.bindings
             volumes := generate_volume_config_lock b.volumes project_internal_id image_ref binary_name
             env := b.env
             env_from_host := b.env_from_host
             extra_paths := b.extra_paths }
  | none =>
    match new_config with
    | some n =>
      some { bindings := n.bindings
             volumes := generate_volume_config_lock n.volumes project_internal_id image_ref binary_name
             env := n.env
             env_from_host := n.env_from_host
             extra_paths := n.extra_paths }
    | none => none

/-- Lean model of merge_run_and_shell_configs (lines 625-713).  The result of
the external get_path_env_var_from_oci_image call (docker.rs) is passed in
as the oci_image_path parameter: some value iff the image reports a PATH
environment variable. -/
def merge_run_and_shell_configs (base_config new_config : Option OCIContainerRunConfig)
    (shell_config : Option ShellConfig)
    (project_internal_id image_name image_tag image_hash binary_name : String)
    (oci_image_path : Option String) : Except ExitErr (Option OCIContainerRunConfigLock) :=
  let merged := merge_run_configs base_config new_config
    project_internal_id image_name image_tag binary_name
  match shell_config with
  | some sc =>
    match merged with
    | some m =>
      match check_against_forbidden_path_var sc m with
      | .error e => .error e
      | .ok _ =>
        let m1 : OCIContainerRunConfigLock := { m with env := merge_envs sc.env m.env }
        let m2 : OCIContainerRunConfigLock :=
          match sc.extra_paths with
          | some eps =>
            match oci_image_path with
            | some img_path =>
              let customized := customize_oci_image_path_env_var img_path eps
              match m1.env with
              | some e => { m1 with env := some (btreeInsert "PATH" customized e) }
              | none => { m1 with env := some [("PATH", customized)] }
            | none => m1
          | none => m1
        .ok (some m2)
    | none =>
      if (sc.env.getD []).any (fun kv => kv.1 == "PATH") then
        .error (Exitcode.usage, ERROR_MSG_FORBIDDEN_PATH_ENV_VAR)
      else
        let e : Option EnvMap :=
          match sc.extra_paths, oci_image_path with
          | some eps, some img_path =>
              some [("PATH", customize_oci_image_path_env_var img_path eps)]
          | _, _ => sc.env
        .ok (some { env := e, env_from_host := none, extra_paths := none,
                    volumes := none, bindings := none })
  | none => .ok merged

theorem mem_setUnion {x : String} {a b : List String} :
    x ∈ setUnion a b ↔ x ∈ a ∨ x ∈ b := by
  constructor
  · intro h
    rcases List.mem_append.mp h with h | h
    · exact Or.inl h
    · exact Or.inr (List.mem_filter.mp h).1
  · intro h
    by_cases hx : x ∈ a
    · exact List.mem_append.mpr (Or.inl hx)
    · rcases h with h | h
      · exact absurd h hx
      · refine List.mem_append.mpr (Or.inr (List.mem_filter.mpr ⟨h, ?_⟩))
        simpa using hx

/-! ## Characterization lemmas for the merge helpers -/

/-- Lookup through an optional map, absent maps behaving as empty. -/
def olookup {α : Type} (k : String) (m : Option (List (String × α))) : Option α :=
  slookup k (m.getD [])

@[simp] theorem olookup_none {α : Type} (k : String) :
    olookup k (none : Option (List (String × α))) = none := rfl

@[simp] theorem olookup_some {α : Type} (k : String) (l : List (String × α)) :
    olookup k (some l) = slookup k l := rfl

/-- The common merge pattern on optional maps: clone base, insert overlay. -/
def mergeMapOpt {α : Type} (base news : Option (List (String × α))) :
    Option (List (String × α)) :=
  match base with
  | some b =>
    match news with
    | some n => some (insertAll n b)
    | none => some b
  | none => news

@[simp] theorem mergeMapOpt_none_left {α : Type} (n : Option (List (String × α))) :
    mergeMapOpt none n = n := rfl

@[simp] theorem mergeMapOpt_none_right {α : Type} (b : Option (List (String × α))) :
    mergeMapOpt b none = b := by cases b <;> rfl

theorem merge_envs_eq_mergeMapOpt (b n : Option EnvMap) :
    merge_envs b n = mergeMapOpt b n := by
  cases b <;> cases n <;> rfl

theorem merge_bindings_eq_mergeMapOpt (b n : Option (List (String × String))) :
    merge_bindings b n = mergeMapOpt b n := by
  cases b <;> cases n <;> rfl

theorem merge_volumes_eq_mergeMapOpt (b n : Option (List (String × VolumeConfig)))
    (pid ref bn : String) :
    merge_volumes b n pid ref bn = generate_volume_config_lock (mergeMapOpt b n) pid ref bn := by
  cases b <;> cases n <;> rfl

theorem olookup_mergeMapOpt {α : Type} (k : String) (b n : Option (List (String × α)))
    (hn : (mapKeys (n.getD [])).Nodup) :
    olookup k (mergeMapOpt b n) = oelse (olookup k n) (olookup k b) := by
  cases b with
  | none => simp [mergeMapOpt]
  | some bb =>
    cases n with
    | none => simp [mergeMapOpt]
    | some nn =>
      simp only [mergeMapOpt, olookup_some, Option.getD_some] at *
      rw [slookup_insertAll k nn bb hn]

theorem nodup_mergeMapOpt {α : Type} {b n : Option (List (String × α))}
    (hb : (mapKeys (b.getD [])).Nodup) (hn : (mapKeys (n.getD [])).Nodup) :
    (mapKeys ((mergeMapOpt b n).getD [])).Nodup := by
  cases b with
  | none => simpa [mergeMapOpt] using hn
  | some bb =>
    cases n with
    | none => simpa [mergeMapOpt] using hb
    | some nn =>
      simp only [mergeMapOpt, Option.getD_some] at *
      exact nodup_insertAll hb nn

theorem mem_merge_envs_from_host (b n : Option (List String)) (x : String) :
    x ∈ (merge_envs_from_host b n).getD [] ↔ x ∈ b.getD [] ∨ x ∈ n.getD [] := by
  cases b <;> cases n <;> simp [merge_envs_from_host, mem_setUnion]

theorem mem_merge_extra_paths (b n : Option (List String)) (x : String) :
    x ∈ (merge_extra_paths b n).getD [] ↔ x ∈ b.getD [] ∨ x ∈ n.getD [] := by
  cases b <;> cases n <;> simp [merge_extra_paths, mem_setUnion]

/-! Component views of merge_run_configs. -/

theorem mrc_env (b n : Option OCIContainerRunConfig) (pid nm tg bn : String) :
    (merge_run_configs b n pid nm tg bn).bind (fun m => m.env) =
      mergeMapOpt (b.bind (fun c => c.env)) (n.bind (fun c => c.env)) := by
  cases b <;> cases n <;>
    simp [merge_run_configs, merge_envs_eq_mergeMapOpt]

theorem mrc_env_from_host (b n : Option OCIContainerRunConfig) (pid nm tg bn : String) :
    (merge_run_configs b n pid nm tg bn).bind (fun m => m.env_from_host) =
      merge_envs_from_host (b.bind (fun c => c.env_from_host)) (n.bind (fun c => c.env_from_host)) := by
  cases b <;> cases n <;>
    simp [merge_run_configs, merge_envs_from_host] <;>
    (rename_i c; cases hc : c.env_from_host <;> simp [hc])

theorem mrc_extra_paths (b n : Option OCIContainerRunConfig) (pid nm tg bn : String) :
    (merge_run_configs b n pid nm tg bn).bind (fun m => m.extra_paths) =
      merge_extra_paths (b.bind (fun c => c.extra_paths)) (n.bind (fun c => c.extra_paths)) := by
  cases b <;> cases n <;>
    simp [merge_run_configs, merge_extra_paths] <;>
    (rename_i c; cases hc : c.extra_paths <;> simp [hc])

theorem mrc_bindings (b n : Option OCIContainerRunConfig) (pid nm tg bn : String) :
    (merge_run_configs b n pid nm tg bn).bind (fun m => m.bindings) =
      mergeMapOpt (b.bind (fun c => c.bindings)) (n.bind (fun c => c.bindings)) := by
  cases b <;> cases n <;>
    simp [merge_run_configs, merge_bindings_eq_mergeMapOpt]

theorem mrc_volumes (b n : Option OCIContainerRunConfig) (pid nm tg bn : String) :
    (merge_run_configs b n pid nm tg bn).bind (fun m => m.volumes) =
      generate_volume_config_lock
        (mergeMapOpt (b.bind (fun c => c.volumes)) (n.bind (fun c => c.volumes)))
        pid (nm ++ "-" ++ tg) bn := by
  cases b <;> cases n <;>
    simp [merge_run_configs, merge_volumes_eq_mergeMapOpt, generate_volume_config_lock]

theorem mrc_none_iff (b n : Option OCIContainerRunConfig) (pid nm tg bn : String) :
    merge_run_configs b n pid nm tg bn = none ↔ (b = none ∧ n = none) := by
  cases b <;> cases n <;> simp [merge_run_configs]

theorem mergeMapOpt_eq_none_iff {α : Type} (b n : Option (List (String × α))) :
    mergeMapOpt b n = none ↔ (b = none ∧ n = none) := by
  cases b <;> cases n <;> simp [mergeMapOpt]

/-- C1 (amended): for every pair of optional run-configs (base from the image
tag, overlay from the binary), optional shell config and reported image
PATH, the merged frozen run-config satisfies: env of the base-overlay merge
is a mapping-merge where overlay keys replace base keys; env_from_host and
extra_paths are set-unions; bindings and volumes are mapping-merges keyed
by container path (volumes with names synthesized over the hyphen-joined
image ref); when a shell config is present and base or overlay is present,
the shell env is merged beneath the base-overlay env (per-binary wins),
except that when shell extra_paths is present and the image reports a PATH
the key PATH is set to the synthesized path on top of that merge; when a
shell config is present but base and overlay are both absent, the result
has only env populated, equal to the shell env, except that when shell
extra_paths is present and the image reports a PATH it is exactly the
single synthesized PATH entry (shell env entries are dropped).  If base,
overlay and shell are all absent, the result is absent. -/
theorem c1_merge_rules
    (base new : Option OCIContainerRunConfig) (shell : Option ShellConfig)
    (pid nm tg ih bn : String) (ip : Option String) (r : Option OCIContainerRunConfigLock)
    (hok : merge_run_and_shell_configs base new shell pid nm tg ih bn ip = .ok r)
    (hbs : (mapKeys ((base.bind (fun c => c.env)).getD [])).Nodup)
    (hns : (mapKeys ((new.bind (fun c => c.env)).getD [])).Nodup)
    (hnb : (mapKeys ((new.bind (fun c => c.bindings)).getD [])).Nodup) :
    ((base = none ∧ new = none ∧ shell = none) → r = none)
    ∧ (∀ x, x ∈ ((r.bind (fun m => m.env_from_host)).getD []) ↔
        x ∈ ((base.bind (fun c => c.env_from_host)).getD [])
          ∨ x ∈ ((new.bind (fun c => c.env_from_host)).getD []))
    ∧ (∀ x, x ∈ ((r.bind (fun m => m.extra_paths)).getD []) ↔
        x ∈ ((base.bind (fun c => c.extra_paths)).getD [])
          ∨ x ∈ ((new.bind (fun c => c.extra_paths)).getD []))
    ∧ (∀ k, olookup k (r.bind (fun m => m.bindings)) =
        oelse (olookup k (new.bind (fun c => c.bindings)))
          (olookup k (base.bind (fun c => c.bindings))))
    ∧ (r.bind (fun m => m.volumes) =
        generate_volume_config_lock
          (mergeMapOpt (base.bind (fun c => c.volumes)) (new.bind (fun c => c.volumes)))
          pid (nm ++ "-" ++ tg) bn)
    ∧ (shell = none → ∀ k, olookup k (r.bind (fun m => m.env)) =
        oelse (olookup k (new.bind (fun c => c.env))) (olookup k (base.bind (fun c => c.env))))
    ∧ (∀ sc, shell = some sc → ¬(base = none ∧ new = none) →
        (∀ k, k ≠ "PATH" → olookup k (r.bind (fun m => m.env)) =
          oelse (oelse (olookup k (new.bind (fun c => c.env)))
            (olookup k (base.bind (fun c => c.env)))) (olookup k sc.env))
        ∧ (∀ eps p, sc.extra_paths = some eps → ip = some p →
            olookup "PATH" (r.bind (fun m => m.env)) =
              some (customize_oci_image_path_env_var p eps))
        ∧ ((sc.extra_paths = none ∨ ip = none) →
            olookup "PATH" (r.bind (fun m => m.env)) =
              oelse (oelse (olookup "PATH" (new.bind (fun c => c.env)))
                (olookup "PATH" (base.bind (fun c => c.env)))) (olookup "PATH" sc.env)))
    ∧ (∀ sc, shell = some sc → base = none → new = none →
        (∀ eps p, sc.extra_paths = some eps → ip = some p →
            r = some { env := some [("PATH", customize_oci_image_path_env_var p eps)],
                       env_from_host := none, extra_paths := none,
                       volumes := none, bindings := none })
        ∧ ((sc.extra_paths = none ∨ ip = none) →
            r = some { env := sc.env, env_from_host := none, extra_paths := none,
                       volumes := none, bindings := none })) := by
  cases shell with
  | none =>
    simp only [merge_run_and_shell_configs, Except.ok.injEq] at hok
    subst hok
    refine ⟨?_, ?_, ?_, ?_, ?_, ?_, ?_, ?_⟩
    · rintro ⟨hb, hn, -⟩
      exact (mrc_none_iff base new pid nm tg bn).mpr ⟨hb, hn⟩
    · intro x
      rw [mrc_env_from_host]
      exact mem_merge_envs_from_host _ _ x
    · intro x
      rw [mrc_extra_paths]
      exact mem_merge_extra_paths _ _ x
    · intro k
      rw [mrc_bindings]
      exact olookup_mergeMapOpt k _ _ hnb
    · exact mrc_volumes base new pid nm tg bn
    · intro _ k
      rw [mrc_env]
      exact olookup_mergeMapOpt k _ _ hns
    · intro sc hsc
      exact absurd hsc (by simp)
    · intro sc hsc
      exact absurd hsc (by simp)
  | some sc =>
    cases hm : merge_run_configs base new pid nm tg bn with
    | none =>
      obtain ⟨hb, hn⟩ := (mrc_none_iff base new pid nm tg bn).mp hm
      subst hb; subst hn
      simp only [merge_run_and_shell_configs, hm] at hok
      by_cases hpath : ((sc.env.getD []).any (fun kv => kv.1 == "PATH")) = true
      · rw [if_pos hpath] at hok
        exact absurd hok (by simp)
      · rw [if_neg hpath] at hok
        simp only [Except.ok.injEq] at hok
        subst hok
        refine ⟨?_, ?_, ?_, ?_, ?_, ?_, ?_, ?_⟩
        · rintro ⟨-, -, h⟩
          exact absurd h (by simp)
        · intro x; simp
        · intro x; simp
        · intro k; simp [olookup]
        · simp [generate_volume_config_lock]
        · intro h
          exact absurd h (by simp)
        · intro sc2 hsc2 habs
          exact absurd ⟨rfl, rfl⟩ habs
        · intro sc2 hsc2 _ _
          injection hsc2 with hsc2
          subst hsc2
          refine ⟨?_, ?_⟩
          · intro eps p heps hp
            simp only [heps, hp]
          · intro habs
            rcases habs with h | h
            · simp only [h]
            · simp only [h]
              cases sc.extra_paths <;> simp
    | some m =>
      have henv : m.env =
          mergeMapOpt (base.bind (fun c => c.env)) (new.bind (fun c => c.env)) := by
        have h := mrc_env base new pid nm tg bn
        rw [hm] at h
        simpa using h
      have hefh : m.env_from_host =
          merge_envs_from_host (base.bind (fun c => c.env_from_host))
            (new.bind (fun c => c.env_from_host)) := by
        have h := mrc_env_from_host base new pid nm tg bn
        rw [hm] at h
        simpa using h
      have hxp : m.extra_paths =
          merge_extra_paths (base.bind (fun c => c.extra_paths))
            (new.bind (fun c => c.extra_paths)) := by
        have h := mrc_extra_paths base new pid nm tg bn
        rw [hm] at h
        simpa using h
      have hbd : m.bindings =
          mergeMapOpt (base.bind (fun c => c.bindings)) (new.bind (fun c => c.bindings)) := by
        have h := mrc_bindings base new pid nm tg bn
        rw [hm] at h
        simpa using h
      have hvl : m.volumes = generate_volume_config_lock
          (mergeMapOpt (base.bind (fun c => c.volumes)) (new.bind (fun c => c.volumes)))
          pid (nm ++ "-" ++ tg) bn := by
        have h := mrc_volumes base new pid nm tg bn
        rw [hm] at h
        simpa using h
      have hmsort : (mapKeys (m.env.getD [])).Nodup := by
        rw [henv]
        exact nodup_mergeMapOpt hbs hns
      have hmlaw : ∀ k, olookup k (merge_envs sc.env m.env) =
          oelse (oelse (olookup k (new.bind (fun c => c.env)))
            (olookup k (base.bind (fun c => c.env)))) (olookup k sc.env) := by
        intro k
        rw [merge_envs_eq_mergeMapOpt,
            olookup_mergeMapOpt k sc.env m.env hmsort, henv,
            olookup_mergeMapOpt k _ _ hns]
      have hmabs : ¬(base = none ∧ new = none) := by
        rintro ⟨hb, hn⟩
        rw [hb, hn] at hm
        rw [(mrc_none_iff none none pid nm tg bn).mpr ⟨rfl, rfl⟩] at hm
        exact Option.noConfusion hm
      cases hchk : check_against_forbidden_path_var sc m with
      | error e =>
        simp only [merge_run_and_shell_configs, hm, hchk] at hok
        exact absurd hok (by simp)
      | ok u =>
        simp only [merge_run_and_shell_configs, hm, hchk, Except.ok.injEq] at hok
        subst hok
        cases he : sc.extra_paths with
        | none =>
          dsimp only
          refine ⟨?_, ?_, ?_, ?_, ?_, ?_, ?_, ?_⟩
          · rintro ⟨-, -, h⟩
            exact absurd h (by simp)
          · intro x
            rw [hefh]
            exact mem_merge_envs_from_host _ _ x
          · intro x
            rw [hxp]
            exact mem_merge_extra_paths _ _ x
          · intro k
            rw [hbd]
            exact olookup_mergeMapOpt k _ _ hnb
          · exact hvl
          · intro h
            exact absurd h (by simp)
          · intro sc2 hsc2 _
            injection hsc2 with hsc2
            subst hsc2
            refine ⟨?_, ?_, ?_⟩
            · intro k _
              exact hmlaw k
            · intro eps p heps _
              rw [he] at heps
              exact Option.noConfusion heps
            · intro _
              exact hmlaw "PATH"
          · intro sc2 hsc2 hb hn
            exact absurd ⟨hb, hn⟩ hmabs
        | some eps =>
          cases hip : ip with
          | none =>
            dsimp only
            refine ⟨?_, ?_, ?_, ?_, ?_, ?_, ?_, ?_⟩
            · rintro ⟨-, -, h⟩
              exact absurd h (by simp)
            · intro x
              rw [hefh]
              exact mem_merge_envs_from_host _ _ x
            · intro x
              rw [hxp]
              exact mem_merge_extra_paths _ _ x
            · intro k
              rw [hbd]
              exact olookup_mergeMapOpt k _ _ hnb
            · exact hvl
            · intro h
              exact absurd h (by simp)
            · intro sc2 hsc2 _
              injection hsc2 with hsc2
              subst hsc2
              refine ⟨?_, ?_, ?_⟩
              · intro k _
                exact hmlaw k
              · intro eps2 p heps hp
                exact Option.noConfusion hp
              · intro _
                exact hmlaw "PATH"
            · intro sc2 hsc2 hb hn
              exact absurd ⟨hb, hn⟩ hmabs
          | some p =>
            cases hm1e : merge_envs sc.env m.env with
            | none =>
              obtain ⟨hsce, hme⟩ :=
                (mergeMapOpt_eq_none_iff sc.env m.env).mp
                  ((merge_envs_eq_mergeMapOpt sc.env m.env) ▸ hm1e)
              obtain ⟨hbe, hne⟩ :=
                (mergeMapOpt_eq_none_iff _ _).mp (henv ▸ hme)
              dsimp only
              refine ⟨?_, ?_, ?_, ?_, ?_, ?_, ?_, ?_⟩
              · rintro ⟨-, -, h⟩
                exact absurd h (by simp)
              · intro x
                rw [hefh]
                exact mem_merge_envs_from_host _ _ x
              · intro x
                rw [hxp]
                exact mem_merge_extra_paths _ _ x
              · intro k
                rw [hbd]
                exact olookup_mergeMapOpt k _ _ hnb
              · exact hvl
              · intro h
                exact absurd h (by simp)
              · intro sc2 hsc2 _
                injection hsc2 with hsc2
                subst hsc2
                refine ⟨?_, ?_, ?_⟩
                · intro k hk
                  rw [hbe, hne, hsce]
                  simp [olookup, slookup, hk]
                · intro eps2 p2 heps hp
                  rw [he] at heps
                  injection heps with heps
                  injection hp with hp
                  subst heps; subst hp
                  simp [olookup, slookup]
                · intro habs
                  rcases habs with h | h
                  · rw [he] at h
                    exact Option.noConfusion h
                  · exact Option.noConfusion h
              · intro sc2 hsc2 hb hn
                exact absurd ⟨hb, hn⟩ hmabs
            | some e1 =>
              dsimp only
              refine ⟨?_, ?_, ?_, ?_, ?_, ?_, ?_, ?_⟩
              · rintro ⟨-, -, h⟩
                exact absurd h (by simp)
              · intro x
                rw [hefh]
                exact mem_merge_envs_from_host _ _ x
              · intro x
                rw [hxp]
                exact mem_merge_extra_paths _ _ x
              · intro k
                rw [hbd]
                exact olookup_mergeMapOpt k _ _ hnb
              · exact hvl
              · intro h
                exact absurd h (by simp)
              · intro sc2 hsc2 _
                injection hsc2 with hsc2
                subst hsc2
                refine ⟨?_, ?_, ?_⟩
                · intro k hk
                  show slookup k (btreeInsert "PATH"
                    (customize_oci_image_path_env_var p eps) e1) = _
                  rw [slookup_btreeInsert_ne hk]
                  have hl := hmlaw k
                  rw [hm1e] at hl
                  exact hl
                · intro eps2 p2 heps hp
                  rw [he] at heps
                  injection heps with heps
                  injection hp with hp
                  subst heps; subst hp
                  exact slookup_btreeInsert_self "PATH" _ e1
                · intro habs
                  rcases habs with h | h
                  · rw [he] at h
                    exact Option.noConfusion h
                  · exact Option.noConfusion h
              · intro sc2 hsc2 hb hn
                exact absurd ⟨hb, hn⟩ hmabs

/-- C1 counterexample: with base and overlay both absent, a shell config
with env B=2 and a relative extra path, and an image that reports PATH,
the merger succeeds but the resulting env drops the shell entry B, whereas
the claim requires the shell env to be merged beneath the (empty)
base-overlay result, i.e. B to map to 2. -/
theorem c1_counterexample :
    merge_run_and_shell_configs none none (some ⟨some [("B", "2")], some ["p"]⟩)
        "P" "n" "t" "h" "b" (some "/usr/bin") =
      .ok (some ⟨some [("PATH", "/playground/p:/usr/bin")], none, none, none, none⟩)
    ∧ slookup "B" [("PATH", "/playground/p:/usr/bin")] = none
    ∧ slookup "B" [("B", "2")] = some "2" := by
  refine ⟨by decide, by decide, by decide⟩

/-- C1 witness: the merge law instantiated at a concrete pair of
run-configs with shell overlay; the per-binary entry for key A wins. -/
theorem c1_merge_rules_witness :
    olookup "A" ((some (⟨some [("C", "4"), ("A", "2"), ("B", "3"), ("PATH", "/playground/q:/bin")],
        some ["HB", "HN"], some ["pb", "/abs"], some [⟨"/d", "volA"⟩],
        some [("/c1", "/h2")]⟩ : OCIContainerRunConfigLock)).bind (fun m => m.env)) =
      oelse (oelse
        (olookup "A" ((some (⟨some [("A", "2"), ("B", "3")], some ["HN"], some ["/abs"],
            none, some [("/c1", "/h2")]⟩ : OCIContainerRunConfig)).bind (fun c => c.env)))
        (olookup "A" ((some (⟨some [("A", "1")], some ["HB"], some ["pb"],
            some [("/d", ⟨some "volA", VolumeScope.project⟩)],
            some [("/c1", "/h1")]⟩ : OCIContainerRunConfig)).bind (fun c => c.env))))
        (olookup "A" (some [("C", "4")])) := by
  exact ((c1_merge_rules
    (some ⟨some [("A", "1")], some ["HB"], some ["pb"],
      some [("/d", ⟨some "volA", VolumeScope.project⟩)], some [("/c1", "/h1")]⟩)
    (some ⟨some [("A", "2"), ("B", "3")], some ["HN"], some ["/abs"], none,
      some [("/c1", "/h2")]⟩)
    (some ⟨some [("C", "4")], some ["q"]⟩)
    "P" "n" "t" "h" "b" (some "/bin")
    (some ⟨some [("C", "4"), ("A", "2"), ("B", "3"), ("PATH", "/playground/q:/bin")],
      some ["HB", "HN"], some ["pb", "/abs"], some [⟨"/d", "volA"⟩],
      some [("/c1", "/h2")]⟩)
    (by decide) (by decide) (by decide) (by decide)).2.2.2.2.2.2.1
    ⟨some [("C", "4")], some ["q"]⟩ rfl (by simp)).1 "A" (by decide)

/-! ## Claims C3, C4, C5 -/

/-- C3 (amended): for every volume declaration without an explicit name,
the synthesized volume name is prj_(pid)_(h16) for Project scope,
img_(pid)_(image_ref dotted)_(h16) for OCIImage scope and
bin_(pid)_(image_ref raw)_(binary)_(h16) for Binary scope, where h16 is
the hex encoding of the first 16 bytes of SHA-256 of the container path
UTF-8 bytes and image_ref is image_name and tag joined by a hyphen (the
slash-to-dot replacement is applied only in the OCIImage arm).  An
explicit name field overrides synthesis entirely. -/
theorem c3_volume_names
    (pid image_ref bn nm tg cpath : String) (n : String) (scope : VolumeScope)
    (vols : List (String × VolumeConfig)) :
    (generate_volume_name pid image_ref bn { name := some n, scope := scope } cpath = n)
    ∧ (generate_volume_name pid image_ref bn { name := none, scope := .project } cpath =
        "prj_" ++ pid ++ "_" ++ hexEncode ((sha256 (utf8Bytes cpath)).take 16))
    ∧ (generate_volume_name pid image_ref bn { name := none, scope := .ociImage } cpath =
        "img_" ++ pid ++ "_" ++ (replace_char image_ref '/' '.') ++ "_" ++
          hexEncode ((sha256 (utf8Bytes cpath)).take 16))
    ∧ (generate_volume_name pid image_ref bn { name := none, scope := .binary } cpath =
        "bin_" ++ pid ++ "_" ++ image_ref ++ "_" ++ bn ++ "_" ++
          hexEncode ((sha256 (utf8Bytes cpath)).take 16))
    ∧ ((merge_run_configs
          (some { env := none, env_from_host := none, extra_paths := none,
                  volumes := some vols, bindings := none }) none pid nm tg bn).bind
        (fun l => l.volumes) =
        some (vols.map (fun kv =>
          ⟨kv.1, generate_volume_name pid (nm ++ "-" ++ tg) bn kv.2 kv.1⟩))) := by
  refine ⟨rfl, rfl, rfl, rfl, rfl⟩

/-- C3 counterexample: for project id P1, image foo/bar tag 1, an unnamed
OCIImage-scoped volume at container path /d gets the name
img_P1_foo.bar-1_(h16) — the image ref separator is a hyphen — while the
claim prescribes img_P1_foo.bar:1_(h16) with a colon. -/
theorem c3_counterexample :
    (merge_run_configs
      (some ⟨none, none, none, some [("/d", ⟨none, VolumeScope.ociImage⟩)], none⟩)
      none "P1" "foo/bar" "1" "sh") =
      some ⟨none, none, none,
        some [⟨"/d", "img_P1_foo.bar-1_4823e769dbaf8fb90f5ea4986c50c26d"⟩], none⟩
    ∧ "img_P1_foo.bar-1_4823e769dbaf8fb90f5ea4986c50c26d" ≠
        "img_P1_foo.bar:1_" ++ hexEncode ((sha256 (utf8Bytes "/d")).take 16) := by
  refine ⟨by decide, by decide⟩

/-- Key membership in an env map versus the boolean any-scan the sources
use for contains_key. -/
theorem any_key_eq_mem {α : Type} (l : List (String × α)) (k : String) :
    (l.any (fun kv => kv.1 == k)) = true ↔ k ∈ mapKeys l := by
  simp [mapKeys, List.any_eq_true, beq_iff_eq, List.mem_map]

/-- C4 (amended): when a shell config is present, a PATH key in the shell
env, in the merged base-overlay env, or in the merged env_from_host is
detected during compilation and terminates with exit code USAGE and the
message about the forbidden PATH variable.  (When no shell config is
present the merger performs no PATH check; see the counterexample.) -/
theorem c4_forbidden_path_check
    (base new : Option OCIContainerRunConfig) (sc : ShellConfig)
    (pid nm tg ih bn : String) (ip : Option String)
    (hviol :
      ("PATH" ∈ mapKeys (sc.env.getD []))
      ∨ ("PATH" ∈ mapKeys
          (((merge_run_configs base new pid nm tg bn).bind (fun m => m.env)).getD []))
      ∨ ("PATH" ∈
          ((merge_run_configs base new pid nm tg bn).bind (fun m => m.env_from_host)).getD [])) :
    merge_run_and_shell_configs base new (some sc) pid nm tg ih bn ip =
      .error (Exitcode.usage, ERROR_MSG_FORBIDDEN_PATH_ENV_VAR) := by
  cases hm : merge_run_configs base new pid nm tg bn with
  | none =>
    rw [hm] at hviol
    have h1 : "PATH" ∈ mapKeys (sc.env.getD []) := by
      rcases hviol with h | h | h
      · exact h
      · simp [mapKeys] at h
      · simp at h
    have h1b : ((sc.env.getD []).any (fun kv => kv.1 == "PATH")) = true :=
      (any_key_eq_mem _ _).mpr h1
    simp only [merge_run_and_shell_configs, hm, h1b, if_pos]
  | some m =>
    rw [hm] at hviol
    have hcheck : check_against_forbidden_path_var sc m =
        .error (Exitcode.usage, ERROR_MSG_FORBIDDEN_PATH_ENV_VAR) := by
      by_cases h1 : ((sc.env.getD []).any (fun kv => kv.1 == "PATH")) = true
      · rw [check_against_forbidden_path_var, if_pos h1]
      · by_cases h2 : ((m.env.getD []).any (fun kv => kv.1 == "PATH")) = true
        · rw [check_against_forbidden_path_var, if_neg h1, if_pos h2]
        · by_cases h3 : ((m.env_from_host.getD []).contains "PATH") = true
          · rw [check_against_forbidden_path_var, if_neg h1, if_neg h2, if_pos h3]
          · exfalso
            rcases hviol with h | h | h
            · exact h1 ((any_key_eq_mem _ _).mpr h)
            · exact h2 ((any_key_eq_mem _ _).mpr (by simpa using h))
            · refine h3 ?_
              simp only [Option.some_bind] at h
              simpa [List.elem_iff] using h
    simp only [merge_run_and_shell_configs, hm, hcheck]

/-- C4 counterexample: with no shell config, a binary run-config whose env
contains PATH compiles without any error: the merger returns the lock with
PATH inside instead of terminating with USAGE, contradicting the claim for
the shell-config-absent combination. -/
theorem c4_counterexample :
    merge_run_and_shell_configs none
        (some ⟨some [("PATH", "/x")], none, none, none, none⟩)
        none "P" "n" "t" "h" "b" none =
      .ok (some ⟨some [("PATH", "/x")], none, none, none, none⟩) := by
  decide

theorem c4_forbidden_path_check_witness :
    merge_run_and_shell_configs none none
        (some ⟨some [("PATH", "/x")], none⟩)
        "P" "n" "t" "h" "b" none =
      .error (Exitcode.usage, ERROR_MSG_FORBIDDEN_PATH_ENV_VAR) :=
  c4_forbidden_path_check none none ⟨some [("PATH", "/x")], none⟩
    "P" "n" "t" "h" "b" none (Or.inl (by decide))

/-- Shared helper: whenever the shell overlay runs with extra paths present
and a reported image PATH, the frozen env maps PATH to the customized
path, in both the merged-present and merged-absent branches. -/
theorem merge_shell_path_synthesis
    (base new : Option OCIContainerRunConfig) (sc : ShellConfig)
    (pid nm tg ih bn : String) (eps : List String) (p : String)
    (r : OCIContainerRunConfigLock)
    (he : sc.extra_paths = some eps)
    (hok : merge_run_and_shell_configs base new (some sc) pid nm tg ih bn (some p) =
      .ok (some r)) :
    olookup "PATH" r.env = some (customize_oci_image_path_env_var p eps) := by
  cases hm : merge_run_configs base new pid nm tg bn with
  | none =>
    simp only [merge_run_and_shell_configs, hm] at hok
    by_cases hpath : ((sc.env.getD []).any (fun kv => kv.1 == "PATH")) = true
    · rw [if_pos hpath] at hok
      exact absurd hok (by simp)
    · rw [if_neg hpath] at hok
      simp only [Except.ok.injEq, Option.some.injEq] at hok
      subst hok
      rw [he]
      simp [olookup, slookup]
  | some m =>
    cases hchk : check_against_forbidden_path_var sc m with
    | error e =>
      simp only [merge_run_and_shell_configs, hm, hchk] at hok
      exact absurd hok (by simp)
    | ok u =>
      simp only [merge_run_and_shell_configs, hm, hchk, Except.ok.injEq,
        Option.some.injEq] at hok
      subst hok
      rw [he]
      cases hm1e : merge_envs sc.env m.env with
      | none => simp [hm1e, olookup, slookup]
      | some e1 =>
        simp only [hm1e]
        exact slookup_btreeInsert_self "PATH" _ e1

/-- C5: the synthesized container PATH equals the colon-joined list of only
the relative extra_paths entries, each rebased onto /playground, followed
by a colon and the image native PATH (absolute entries are dropped, and
the rebased entries precede the image PATH); and whenever the shell
config has extra_paths and the image reports a PATH, the frozen env of the
merged run-config maps PATH to exactly that synthesized value. -/
theorem c5_path_customization :
    (∀ (oci_image_path : String) (extra_paths : List String),
      customize_oci_image_path_env_var oci_image_path extra_paths =
        String.intercalate ":"
          ((extra_paths.filter path_is_relative).map
            (fun p => "/playground/" ++ p)) ++ ":" ++ oci_image_path)
    ∧ (∀ q : String, path_is_relative q = true ↔ ¬(q.data.head? = some '/'))
    ∧ (∀ (base new : Option OCIContainerRunConfig) (sc : ShellConfig)
        (pid nm tg ih bn : String) (eps : List String) (p : String)
        (r : OCIContainerRunConfigLock),
        sc.extra_paths = some eps →
        merge_run_and_shell_configs base new (some sc) pid nm tg ih bn (some p) =
          .ok (some r) →
        olookup "PATH" r.env = some (customize_oci_image_path_env_var p eps)) := by
  refine ⟨fun _ _ => rfl, ?_, ?_⟩
  · intro q
    cases hq : q.data with
    | nil => simp [path_is_relative, hq]
    | cons c cs => simp [path_is_relative, hq]
  · intro base new sc pid nm tg ih bn eps p r he hok
    exact merge_shell_path_synthesis base new sc pid nm tg ih bn eps p r he hok

/-- C5 witness: with one relative extra path q and image PATH /bin, the
frozen env maps PATH to /playground/q:/bin. -/
theorem c5_path_customization_witness :
    olookup "PATH" (some [("PATH", "/playground/q:/bin")] : Option EnvMap) =
      some (customize_oci_image_path_env_var "/bin" ["q"]) :=
  c5_path_customization.2.2 none none ⟨none, some ["q"]⟩
    "P" "n" "t" "h" "b" ["q"] "/bin"
    ⟨some [("PATH", "/playground/q:/bin")], none, none, none, none⟩
    rfl (by decide)

/-! ## Claim C2: the state reconciler of `subcommands/install.rs` -/

/-- A file-system entry: a regular file with bytes, or something else. -/
inductive FileNode where
  | regular (bytes : List Nat)
  | nonRegular
deriving DecidableEq, Repr

/-- The three documents on disk plus the volatile directory flag. -/
structure Fs where
  config : Option FileNode
  lock : Option FileNode
  state : Option FileNode
  volatileDir : Bool
deriving DecidableEq, Repr

/-- Observable side effects of the reconciler and installer. -/
inductive Effect where
  | writeLockFile (bytes : List Nat)
  | writeStateFile (bytes : List Nat)
  | createDir (name : String)
  | removeDir (name : String)
  | createSymlink (name : String)
  | createVolume (name : String)
  | pullImage (ref : String)
deriving DecidableEq, Repr

/-- External dependencies of the reconciler: the YAML codec (serde_yaml)
and the docker-driven compilation of images and binaries
(get_image_compiled_configs and get_binaries_settings), all commodity or
subprocess-backed in the sources. -/
structure ReconcileCtx where
  parseConfig : List Nat → Option ProjectConfig
  parseLock : List Nat → Option ProjectConfigLock
  serializeLock : ProjectConfigLock → List Nat
  compile : ProjectConfig → Except ExitErr
    ((List (String × List (String × OCIImageTagConfigLock)))
      × (List (String × ImageBinaryConfigLock)))

/-- Lean model of get_file_bytes (project_config.rs 528-557): a missing or
non-regular file exits NOINPUT (read errors are not modelled). -/
def get_file_bytes (slot : Option FileNode) (name : String) : Except ExitErr (List Nat) :=
  match slot with
  | some (.regular b) => .ok b
  | _ => .error (Exitcode.noinput, "The file " ++ name ++ " is not available")

/-- Lean model of get_config (project_config.rs 468-496). -/
def get_config (ctx : ReconcileCtx) (slot : Option FileNode) (name : String) :
    Except ExitErr (ProjectConfig × List Nat) :=
  match get_file_bytes slot name with
  | .error e => .error e
  | .ok bytes =>
    match ctx.parseConfig bytes with
    | some c => .ok (c, sha256 bytes)
    | none => .error (Exitcode.dataerr, "Malformed config file " ++ name)

/-- Lean model of get_config_lock (project_config.rs 498-526). -/
def get_config_lock (ctx : ReconcileCtx) (slot : Option FileNode) (name : String) :
    Except ExitErr (ProjectConfigLock × List Nat) :=
  match get_file_bytes slot name with
  | .error e => .error e
  | .ok bytes =>
    match ctx.parseLock bytes with
    | some c => .ok (c, sha256 bytes)
    | none => .error (Exitcode.dataerr, "Malformed lock file " ++ name)

/-- Lean model of generate_config_lock (install.rs 516-535): compile the
manifest, build the lock with the manifest hash stamped, serialize it.
Returns the lock, the serialized bytes (persisted by the caller into the
file system model) and their SHA-256. -/
def generate_config_lock (ctx : ReconcileCtx) (config : ProjectConfig)
    (config_hash : List Nat) :
    Except ExitErr (ProjectConfigLock × List Nat × List Nat) :=
  match ctx.compile config with
  | .error e => .error e
  | .ok (imgs, bins) =>
    let config_lock : ProjectConfigLock :=
      ⟨config_hash, config.project_internal_id, config.shell_config, imgs, bins⟩
    let bytes := ctx.serializeLock config_lock
    .ok (config_lock, bytes, sha256 bytes)

/-- Lean model of update_project_state (install.rs 886-894): stamp the lock
hash into the state and serialize it for persistence. -/
def update_project_state (ctx : ReconcileCtx) (project_state : ProjectConfigLock)
    (config_lock_hash : List Nat) : ProjectConfigLock × List Nat :=
  let ps := { project_state with project_config_hash := config_lock_hash }
  (ps, ctx.serializeLock ps)

/-- Lock phase of check_project_settings (install.rs 396-419). -/
def lock_phase (ctx : ReconcileCtx) (fs : Fs) (config : ProjectConfig)
    (config_hash : List Nat) :
    Except ExitErr (ProjectConfigLock × List Nat × Bool × Fs × List Effect) :=
  match fs.lock with
  | none =>
    match generate_config_lock ctx config config_hash with
    | .error e => .error e
    | .ok (cl, bytes, digest) =>
      .ok (cl, digest, true, { fs with lock := some (.regular bytes) }, [.writeLockFile bytes])
  | some .nonRegular =>
    .error (Exitcode.dataerr,
      "The path must point to a regular file, found something else")
  | some (.regular lock_bytes) =>
    match ctx.parseLock lock_bytes with
    | none => .error (Exitcode.dataerr, "Malformed lock file Avatarfile.lock")
    | some cl =>
      if config_hash = cl.project_config_hash then
        .ok (cl, sha256 lock_bytes, false, fs, [])
      else
        match generate_config_lock ctx config config_hash with
        | .error e => .error e
        | .ok (cl2, bytes, digest) =>
          .ok (cl2, digest, true, { fs with lock := some (.regular bytes) },
            [.writeLockFile bytes])

/-- State phase of check_project_settings (install.rs 421-451). -/
def state_phase (ctx : ReconcileCtx) (fs1 : Fs) (config_lock : ProjectConfigLock)
    (config_lock_hash : List Nat) (changed1 : Bool) (tr1 : List Effect) :
    Except ExitErr (ProjectConfigLock × Bool × Fs × List Effect) :=
  match fs1.state with
  | none =>
    let fs2 := if fs1.volatileDir then fs1 else { fs1 with volatileDir := true }
    let tr2 := if fs1.volatileDir then tr1 else tr1 ++ [.createDir "volatile"]
    let (ps, bytes) := update_project_state ctx config_lock config_lock_hash
    .ok (ps, true, { fs2 with state := some (.regular bytes) }, tr2 ++ [.writeStateFile bytes])
  | some .nonRegular =>
    .error (Exitcode.dataerr,
      "The path must point to a regular file, found something else")
  | some (.regular state_bytes) =>
    match ctx.parseLock state_bytes with
    | none => .error (Exitcode.dataerr, "Malformed lock file state.yml")
    | some ps =>
      if config_lock_hash = ps.project_config_hash then
        .ok (ps, changed1, fs1, tr1)
      else
        let (ps2, bytes) := update_project_state ctx config_lock config_lock_hash
        .ok (ps2, true, { fs1 with state := some (.regular bytes) },
          tr1 ++ [.writeStateFile bytes])

/-- Lean model of check_project_settings (install.rs 387-454): read the
manifest, reuse or regenerate the lock by manifest-hash comparison, reuse
or regenerate the state by lock-hash comparison, returning the state, the
changed flag, the updated file system and the write effects. -/
def check_project_settings (ctx : ReconcileCtx) (fs : Fs) :
    Except ExitErr (ProjectConfigLock × Bool × Fs × List Effect) :=
  match get_config ctx fs.config "Avatarfile" with
  | .error e => .error e
  | .ok (config, config_hash) =>
    match lock_phase ctx fs config config_hash with
    | .error e => .error e
    | .ok (config_lock, config_lock_hash, changed1, fs1, tr1) =>
      state_phase ctx fs1 config_lock config_lock_hash changed1 tr1

theorem lock_phase_cases {ctx : ReconcileCtx} {fs : Fs} {config : ProjectConfig}
    {config_hash : List Nat} {cl : ProjectConfigLock} {clh : List Nat} {ch1 : Bool}
    {fs1 : Fs} {tr1 : List Effect}
    (h : lock_phase ctx fs config config_hash = .ok (cl, clh, ch1, fs1, tr1)) :
    (∃ lb, fs.lock = some (.regular lb) ∧ ctx.parseLock lb = some cl ∧
       config_hash = cl.project_config_hash ∧ clh = sha256 lb ∧
       ch1 = false ∧ fs1 = fs ∧ tr1 = [])
    ∨ ((fs.lock = none ∨ (∃ lb cl0, fs.lock = some (.regular lb) ∧
          ctx.parseLock lb = some cl0 ∧ config_hash ≠ cl0.project_config_hash))
        ∧ ch1 = true
        ∧ ∃ imgs bins, ctx.compile config = .ok (imgs, bins)
          ∧ cl = ⟨config_hash, config.project_internal_id, config.shell_config, imgs, bins⟩
          ∧ fs1 = { fs with lock := some (.regular (ctx.serializeLock cl)) }
          ∧ clh = sha256 (ctx.serializeLock cl)
          ∧ tr1 = [.writeLockFile (ctx.serializeLock cl)]) := by
  cases hfsl : fs.lock with
  | none =>
    simp only [lock_phase, hfsl] at h
    cases hcomp : ctx.compile config with
    | error e =>
      simp only [generate_config_lock, hcomp] at h
      exact absurd h (by simp)
    | ok p =>
      obtain ⟨imgs, bins⟩ := p
      simp only [generate_config_lock, hcomp, Except.ok.injEq, Prod.mk.injEq] at h
      obtain ⟨h1, h2, h3, h4, h5⟩ := h
      refine Or.inr ⟨Or.inl rfl, h3.symm, imgs, bins, rfl, h1.symm, ?_, ?_, ?_⟩
      · rw [← h4, ← h1]
      · rw [← h2, ← h1]
      · rw [← h5, ← h1]
  | some node =>
    cases node with
    | nonRegular =>
      simp only [lock_phase, hfsl] at h
      exact absurd h (by simp)
    | regular lb =>
      simp only [lock_phase, hfsl] at h
      cases hpl : ctx.parseLock lb with
      | none =>
        simp only [hpl] at h
        exact absurd h (by simp)
      | some cl0 =>
        simp only [hpl] at h
        by_cases hh : config_hash = cl0.project_config_hash
        · rw [if_pos hh] at h
          simp only [Except.ok.injEq, Prod.mk.injEq] at h
          obtain ⟨h1, h2, h3, h4, h5⟩ := h
          subst h1
          exact Or.inl ⟨lb, rfl, hpl, hh, h2.symm, h3.symm, h4.symm, h5.symm⟩
        · rw [if_neg hh] at h
          cases hcomp : ctx.compile config with
          | error e =>
            simp only [generate_config_lock, hcomp] at h
            exact absurd h (by simp)
          | ok p =>
            obtain ⟨imgs, bins⟩ := p
            simp only [generate_config_lock, hcomp, Except.ok.injEq, Prod.mk.injEq] at h
            obtain ⟨h1, h2, h3, h4, h5⟩ := h
            refine Or.inr ⟨Or.inr ⟨lb, cl0, rfl, hpl, hh⟩, h3.symm, imgs, bins, rfl,
              h1.symm, ?_, ?_, ?_⟩
            · rw [← h4, ← h1]
            · rw [← h2, ← h1]
            · rw [← h5, ← h1]

theorem state_phase_cases {ctx : ReconcileCtx} {fs1 : Fs} {cl : ProjectConfigLock}
    {clh : List Nat} {ch1 : Bool} {tr1 : List Effect} {st : ProjectConfigLock}
    {ch : Bool} {fs2 : Fs} {tr : List Effect}
    (h : state_phase ctx fs1 cl clh ch1 tr1 = .ok (st, ch, fs2, tr)) :
    (∃ sb, fs1.state = some (.regular sb) ∧ ctx.parseLock sb = some st ∧
       clh = st.project_config_hash ∧ ch = ch1 ∧ fs2 = fs1 ∧ tr = tr1)
    ∨ ((fs1.state = none ∨ (∃ sb ps, fs1.state = some (.regular sb) ∧
          ctx.parseLock sb = some ps ∧ clh ≠ ps.project_config_hash))
        ∧ ch = true
        ∧ st = { cl with project_config_hash := clh }
        ∧ fs2.state = some (.regular (ctx.serializeLock st))
        ∧ fs2.lock = fs1.lock ∧ fs2.config = fs1.config
        ∧ Effect.writeStateFile (ctx.serializeLock st) ∈ tr
        ∧ (∀ e, e ∈ tr1 → e ∈ tr)
        ∧ (∀ e, e ∈ tr → e ∈ tr1 ∨ e = .writeStateFile (ctx.serializeLock st)
            ∨ e = .createDir "volatile")) := by
  cases hfss : fs1.state with
  | none =>
    simp only [state_phase, hfss, update_project_state, Except.ok.injEq, Prod.mk.injEq] at h
    obtain ⟨h1, h2, h3, h4⟩ := h
    subst h1
    refine Or.inr ⟨Or.inl rfl, h2.symm, rfl, ?_, ?_, ?_, ?_, ?_, ?_⟩
    · rw [← h3]
    · rw [← h3]
      by_cases hv : fs1.volatileDir <;> simp [hv]
    · rw [← h3]
      by_cases hv : fs1.volatileDir <;> simp [hv]
    · rw [← h4]
      by_cases hv : fs1.volatileDir <;> simp [hv]
    · intro e he
      rw [← h4]
      by_cases hv : fs1.volatileDir <;> simp [hv, he]
    · intro e he
      rw [← h4] at he
      by_cases hv : fs1.volatileDir
      · simp only [hv, if_pos, List.mem_append, List.mem_singleton] at he
        rcases he with he | he
        · exact Or.inl he
        · exact Or.inr (Or.inl he)
      · simp only [hv, if_neg, Bool.false_eq_true, not_false_eq_true, List.append_assoc,
          List.mem_append, List.mem_singleton] at he
        rcases he with he | he | he
        · exact Or.inl he
        · exact Or.inr (Or.inr he)
        · exact Or.inr (Or.inl he)
  | some node =>
    cases node with
    | nonRegular =>
      simp only [state_phase, hfss] at h
      exact absurd h (by simp)
    | regular sb =>
      simp only [state_phase, hfss] at h
      cases hps : ctx.parseLock sb with
      | none =>
        simp only [hps] at h
        exact absurd h (by simp)
      | some ps =>
        simp only [hps] at h
        by_cases hh : clh = ps.project_config_hash
        · rw [if_pos hh] at h
          simp only [Except.ok.injEq, Prod.mk.injEq] at h
          obtain ⟨h1, h2, h3, h4⟩ := h
          subst h1
          exact Or.inl ⟨sb, rfl, hps, hh, h2.symm, h3.symm, h4.symm⟩
        · rw [if_neg hh] at h
          simp only [update_project_state, Except.ok.injEq, Prod.mk.injEq] at h
          obtain ⟨h1, h2, h3, h4⟩ := h
          subst h1
          refine Or.inr ⟨Or.inr ⟨sb, ps, rfl, hps, hh⟩, h2.symm, rfl, ?_, ?_, ?_, ?_, ?_, ?_⟩
          · rw [← h3]
          · rw [← h3]
          · rw [← h3]
          · rw [← h4]
            simp
          · intro e he
            rw [← h4]
            simp [he]
          · intro e he
            rw [← h4] at he
            simp only [List.mem_append, List.mem_singleton] at he
            rcases he with he | he
            · exact Or.inl he
            · exact Or.inr (Or.inl he)

/-- C2: the state reconciler returns a (State, changed) pair such that the
existing Lock is reused iff its recorded project_config_hash equals the
SHA-256 of the Manifest bytes, otherwise the Lock is recompiled and
changed is true; the existing State is reused iff its recorded
project_config_hash equals the SHA-256 of the (current) Lock bytes,
otherwise the State becomes a copy of the Lock with that hash stamped, is
persisted, and changed is true; and changed is false exactly when both
were reused, in which case nothing is written and the file system is
untouched. -/
theorem c2_state_reconciler
    (ctx : ReconcileCtx) (fs : Fs) (cb : List Nat) (cfg : ProjectConfig)
    (st : ProjectConfigLock) (ch : Bool) (fs2 : Fs) (tr : List Effect)
    (hc : fs.config = some (.regular cb))
    (hcp : ctx.parseConfig cb = some cfg)
    (h : check_project_settings ctx fs = .ok (st, ch, fs2, tr)) :
    (∀ lb cl, fs.lock = some (.regular lb) → ctx.parseLock lb = some cl →
        cl.project_config_hash = sha256 cb →
        fs2.lock = fs.lock ∧ ∀ b, Effect.writeLockFile b ∉ tr)
    ∧ (fs.lock = none →
        ch = true ∧ ∃ imgs bins, ctx.compile cfg = .ok (imgs, bins) ∧
          fs2.lock = some (.regular (ctx.serializeLock
            ⟨sha256 cb, cfg.project_internal_id, cfg.shell_config, imgs, bins⟩)) ∧
          Effect.writeLockFile (ctx.serializeLock
            ⟨sha256 cb, cfg.project_internal_id, cfg.shell_config, imgs, bins⟩) ∈ tr)
    ∧ (∀ lb cl, fs.lock = some (.regular lb) → ctx.parseLock lb = some cl →
        cl.project_config_hash ≠ sha256 cb →
        ch = true ∧ ∃ imgs bins, ctx.compile cfg = .ok (imgs, bins) ∧
          fs2.lock = some (.regular (ctx.serializeLock
            ⟨sha256 cb, cfg.project_internal_id, cfg.shell_config, imgs, bins⟩)) ∧
          Effect.writeLockFile (ctx.serializeLock
            ⟨sha256 cb, cfg.project_internal_id, cfg.shell_config, imgs, bins⟩) ∈ tr)
    ∧ (∀ lb2 sb ps, fs2.lock = some (.regular lb2) → fs.state = some (.regular sb) →
        ctx.parseLock sb = some ps → ps.project_config_hash = sha256 lb2 →
        fs2.state = fs.state ∧ (∀ b, Effect.writeStateFile b ∉ tr) ∧ st = ps)
    ∧ (∀ lb2, fs2.lock = some (.regular lb2) →
        (fs.state = none ∨ (∃ sb ps, fs.state = some (.regular sb) ∧
          ctx.parseLock sb = some ps ∧ ps.project_config_hash ≠ sha256 lb2)) →
        ch = true ∧ st.project_config_hash = sha256 lb2 ∧
        fs2.state = some (.regular (ctx.serializeLock st)) ∧
        Effect.writeStateFile (ctx.serializeLock st) ∈ tr)
    ∧ (∀ lb cl, fs.lock = some (.regular lb) → ctx.parseLock lb = some cl →
        cl.project_config_hash = sha256 cb →
        (fs.state = none ∨ (∃ sb ps, fs.state = some (.regular sb) ∧
          ctx.parseLock sb = some ps ∧ ps.project_config_hash ≠ sha256 lb)) →
        st = { cl with project_config_hash := sha256 lb })
    ∧ (ch = false ↔ tr = [])
    ∧ (ch = false → fs2 = fs) := by
  have hget : get_config ctx fs.config "Avatarfile" = .ok (cfg, sha256 cb) := by
    rw [hc]
    simp [get_config, get_file_bytes, hcp]
  simp only [check_project_settings, hget] at h
  cases hl : lock_phase ctx fs cfg (sha256 cb) with
  | error e =>
    rw [hl] at h
    exact absurd h (by simp)
  | ok q =>
    obtain ⟨cl, clh, ch1, fs1, tr1⟩ := q
    rw [hl] at h
    have LC := lock_phase_cases hl
    have SC := state_phase_cases h
    have hfs1lock : ∃ lb1, fs1.lock = some (.regular lb1) ∧ clh = sha256 lb1 := by
      rcases LC with ⟨lb, hfl, -, -, hclh, -, hfs1, -⟩ | ⟨-, -, imgs, bins, -, -, hfs1, hclh, -⟩
      · exact ⟨lb, by rw [hfs1]; exact hfl, hclh⟩
      · exact ⟨ctx.serializeLock cl, by rw [hfs1], hclh⟩
    have hfs2lock : fs2.lock = fs1.lock := by
      rcases SC with ⟨sb, -, -, -, -, hfs2, -⟩ | ⟨-, -, -, -, hfl, -⟩
      · rw [hfs2]
      · exact hfl
    have hfs1state : fs1.state = fs.state := by
      rcases LC with ⟨-, -, -, -, -, -, hfs1, -⟩ | ⟨-, -, imgs, bins, -, -, hfs1, -, -⟩
      · rw [hfs1]
      · rw [hfs1]
    have htr1shape : tr1 = [] ∨ ∃ b, tr1 = [Effect.writeLockFile b] := by
      rcases LC with ⟨-, -, -, -, -, -, -, htr1⟩ | ⟨-, -, imgs, bins, -, -, -, -, htr1⟩
      · exact Or.inl htr1
      · exact Or.inr ⟨_, htr1⟩
    have hclh2 : ∀ lb2, fs2.lock = some (.regular lb2) → clh = sha256 lb2 := by
      intro lb2 hfl2
      obtain ⟨lb1, hfl1, hclh1⟩ := hfs1lock
      rw [hfs2lock, hfl1] at hfl2
      injection hfl2 with hfl2
      injection hfl2 with hfl2
      rw [hclh1, hfl2]
    refine ⟨?_, ?_, ?_, ?_, ?_, ?_, ?_, ?_⟩
    · -- A1: fresh lock is reused
      intro lb cl0 hfl hpl hfresh
      rcases LC with ⟨lb0, hfl0, hpl0, hh0, -, -, hfs1, htr1⟩ |
        ⟨hpre, -, imgs, bins, -, -, -, -, -⟩
      · constructor
        · rw [hfs2lock, hfs1]
        · intro b hb
          rcases SC with ⟨-, -, -, -, -, -, htr⟩ | ⟨-, -, -, -, -, -, -, -, hsub⟩
          · rw [htr, htr1] at hb
            simp at hb
          · rcases hsub _ hb with hb2 | hb2 | hb2
            · rw [htr1] at hb2
              simp at hb2
            · exact Effect.noConfusion hb2
            · exact Effect.noConfusion hb2
      · exfalso
        rcases hpre with hpre | ⟨lb1, cl1, hfl1, hpl1, hne⟩
        · rw [hfl] at hpre
          exact Option.noConfusion hpre
        · rw [hfl] at hfl1
          injection hfl1 with hfl1
          injection hfl1 with hfl1
          subst hfl1
          rw [hpl] at hpl1
          injection hpl1 with hpl1
          subst hpl1
          exact hne hfresh.symm
    · -- A2: missing lock is recompiled
      intro hnone
      rcases LC with ⟨lb0, hfl0, -, -, -, -, -, -⟩ |
        ⟨-, hch1, imgs, bins, hcomp, hcl, hfs1, -, htr1⟩
      · rw [hnone] at hfl0
        exact Option.noConfusion hfl0
      · have hch : ch = true := by
          rcases SC with ⟨-, -, -, -, hch, -, -⟩ | ⟨-, hch, -⟩
          · rw [hch, hch1]
          · exact hch
        refine ⟨hch, imgs, bins, hcomp, ?_, ?_⟩
        · rw [hfs2lock, hfs1, hcl]
        · have hmem1 : Effect.writeLockFile (ctx.serializeLock
              ⟨sha256 cb, cfg.project_internal_id, cfg.shell_config, imgs, bins⟩) ∈ tr1 := by
            rw [htr1, hcl]
            simp
          rcases SC with ⟨-, -, -, -, -, -, htr⟩ | ⟨-, -, -, -, -, -, -, hsup, -⟩
          · rw [htr]
            exact hmem1
          · exact hsup _ hmem1
    · -- A3: stale lock is recompiled
      intro lb cl0 hfl hpl hstale
      rcases LC with ⟨lb0, hfl0, hpl0, hh0, -, -, -, -⟩ |
        ⟨-, hch1, imgs, bins, hcomp, hcl, hfs1, -, htr1⟩
      · exfalso
        rw [hfl] at hfl0
        injection hfl0 with hfl0
        injection hfl0 with hfl0
        subst hfl0
        rw [hpl] at hpl0
        injection hpl0 with hpl0
        subst hpl0
        exact hstale hh0.symm
      · have hch : ch = true := by
          rcases SC with ⟨-, -, -, -, hch, -, -⟩ | ⟨-, hch, -⟩
          · rw [hch, hch1]
          · exact hch
        refine ⟨hch, imgs, bins, hcomp, ?_, ?_⟩
        · rw [hfs2lock, hfs1, hcl]
        · have hmem1 : Effect.writeLockFile (ctx.serializeLock
              ⟨sha256 cb, cfg.project_internal_id, cfg.shell_config, imgs, bins⟩) ∈ tr1 := by
            rw [htr1, hcl]
            simp
          rcases SC with ⟨-, -, -, -, -, -, htr⟩ | ⟨-, -, -, -, -, -, -, hsup, -⟩
          · rw [htr]
            exact hmem1
          · exact hsup _ hmem1
    · -- A4: fresh state is reused
      intro lb2 sb ps hfl2 hfst hps hfresh
      have hclheq := hclh2 lb2 hfl2
      rcases SC with ⟨sb0, hfss0, hps0, hh0, -, hfs2, htr⟩ |
        ⟨hpre, -, -, -, -, -, -, -, -⟩
      · have hsb : sb0 = sb := by
          rw [hfs1state, hfst] at hfss0
          injection hfss0 with hfss0
          injection hfss0 with hfss0
          exact hfss0.symm
        subst hsb
        rw [hps] at hps0
        injection hps0 with hps0
        refine ⟨by rw [hfs2, hfs1state], ?_, hps0.symm⟩
        intro b hb
        rw [htr] at hb
        rcases htr1shape with h1 | ⟨b2, h1⟩
        · rw [h1] at hb
          simp at hb
        · rw [h1] at hb
          simp at hb
      · exfalso
        rcases hpre with hpre | ⟨sb1, ps1, hfst1, hps1, hne⟩
        · rw [hfs1state, hfst] at hpre
          exact Option.noConfusion hpre
        · rw [hfs1state, hfst] at hfst1
          injection hfst1 with hfst1
          injection hfst1 with hfst1
          subst hfst1
          rw [hps] at hps1
          injection hps1 with hps1
          subst hps1
          rw [hclheq] at hne
          exact hne hfresh.symm
    · -- A5: stale or missing state is stamped and persisted
      intro lb2 hfl2 hpre
      have hclheq := hclh2 lb2 hfl2
      rcases SC with ⟨sb0, hfss0, hps0, hh0, -, -, -⟩ |
        ⟨-, hch, hst, hfs2s, -, -, hmem, -, -⟩
      · exfalso
        rcases hpre with hpre | ⟨sb, ps, hfst, hps, hne⟩
        · rw [hfs1state, hpre] at hfss0
          exact Option.noConfusion hfss0
        · rw [hfs1state, hfst] at hfss0
          injection hfss0 with hfss0
          injection hfss0 with hfss0
          subst hfss0
          rw [hps] at hps0
          injection hps0 with hps0
          subst hps0
          rw [hclheq] at hh0
          exact hne hh0.symm
      · refine ⟨hch, ?_, hfs2s, hmem⟩
        rw [hst, ← hclheq]
    · -- A6: on reuse of the lock, state becomes the lock with hash stamped
      intro lb cl0 hfl hpl hfresh hpre
      have hcl0 : cl = cl0 ∧ clh = sha256 lb := by
        rcases LC with ⟨lb0, hfl0, hpl0, hh0, hclh0, -, -, -⟩ |
          ⟨hpre2, -, imgs, bins, -, -, -, -, -⟩
        · rw [hfl] at hfl0
          injection hfl0 with hfl0
          injection hfl0 with hfl0
          subst hfl0
          rw [hpl] at hpl0
          injection hpl0 with hpl0
          exact ⟨hpl0.symm, hclh0⟩
        · exfalso
          rcases hpre2 with hpre2 | ⟨lb1, cl1, hfl1, hpl1, hne⟩
          · rw [hfl] at hpre2
            exact Option.noConfusion hpre2
          · rw [hfl] at hfl1
            injection hfl1 with hfl1
            injection hfl1 with hfl1
            subst hfl1
            rw [hpl] at hpl1
            injection hpl1 with hpl1
            subst hpl1
            exact hne hfresh.symm
      obtain ⟨hcleq, hclheq⟩ := hcl0
      rcases SC with ⟨sb0, hfss0, hps0, hh0, -, -, -⟩ |
        ⟨-, -, hst, -, -, -, -, -, -⟩
      · exfalso
        rcases hpre with hpre | ⟨sb, ps, hfst, hps, hne⟩
        · rw [hfs1state, hpre] at hfss0
          exact Option.noConfusion hfss0
        · rw [hfs1state, hfst] at hfss0
          injection hfss0 with hfss0
          injection hfss0 with hfss0
          subst hfss0
          rw [hps] at hps0
          injection hps0 with hps0
          subst hps0
          rw [hclheq] at hh0
          exact hne hh0.symm
      · rw [hst, hcleq, hclheq]
    · -- A7: changed is false iff nothing was written
      constructor
      · intro hch
        rcases SC with ⟨-, -, -, -, hcheq, -, htr⟩ | ⟨-, hcheq, -⟩
        · rcases LC with ⟨-, -, -, -, -, hch1, -, htr1⟩ |
            ⟨-, hch1, imgs, bins, -, -, -, -, -⟩
          · rw [htr, htr1]
          · rw [hch, hch1] at hcheq
            exact absurd hcheq.symm (by simp)
        · rw [hch] at hcheq
          exact absurd hcheq.symm (by simp)
      · intro htr
        rcases SC with ⟨-, -, -, -, hcheq, -, htreq⟩ | ⟨-, -, -, -, -, -, hmem, -, -⟩
        · rcases LC with ⟨-, -, -, -, -, hch1, -, -⟩ |
            ⟨-, -, imgs, bins, -, -, -, -, htr1⟩
          · rw [hcheq, hch1]
          · exfalso
            rw [htr] at htreq
            rw [htr1] at htreq
            exact List.noConfusion htreq.symm
        · exfalso
          rw [htr] at hmem
          simp at hmem
    · -- A8: changed false leaves the file system untouched
      intro hch
      rcases SC with ⟨-, -, -, -, hcheq, hfs2, -⟩ | ⟨-, hcheq, -⟩
      · rcases LC with ⟨-, -, -, -, -, -, hfs1, -⟩ |
          ⟨-, hch1, imgs, bins, -, -, -, -, -⟩
        · rw [hfs2, hfs1]
        · rw [hch, hch1] at hcheq
          exact absurd hcheq.symm (by simp)
      · rw [hch] at hcheq
        exact absurd hcheq.symm (by simp)

/-- Concrete manifest for the C2 witness. -/
def c2cfg0 : ProjectConfig := ⟨"0.1", "pid0", none, none, none⟩

/-- Concrete (fresh) lock for the C2 witness: its hash matches the manifest bytes. -/
def c2cl0 : ProjectConfigLock := ⟨sha256 [1], "pid0", none, [], []⟩

/-- Concrete (fresh) state for the C2 witness: its hash matches the lock bytes. -/
def c2ps0 : ProjectConfigLock := ⟨sha256 [2], "pid0", none, [], []⟩

/-- Concrete reconciliation oracles for the C2 witness. -/
def c2ctx : ReconcileCtx :=
  ⟨fun b => if b = [1] then some c2cfg0 else none,
   fun b => if b = [2] then some c2cl0 else if b = [3] then some c2ps0 else none,
   fun _ => [9],
   fun _ => .ok ([], [])⟩

/-- Concrete file system for the C2 witness: manifest bytes [1], lock bytes [2],
state bytes [3], volatile dir present. -/
def c2fs : Fs := ⟨some (.regular [1]), some (.regular [2]), some (.regular [3]), true⟩

/-- Witness for C2: on a fully fresh project the reconciler reports no change,
writes nothing, and leaves the file system untouched. -/
theorem c2_state_reconciler_witness :
    c2fs.config = some (.regular [1]) ∧
    c2ctx.parseConfig [1] = some c2cfg0 ∧
    check_project_settings c2ctx c2fs = .ok (c2ps0, false, c2fs, []) ∧
    c2fs = c2fs := by
  have h1 : c2fs.config = some (.regular [1]) := rfl
  have h2 : c2ctx.parseConfig [1] = some c2cfg0 := by decide
  have h3 : check_project_settings c2ctx c2fs = .ok (c2ps0, false, c2fs, []) := by decide
  exact ⟨h1, h2, h3,
    (c2_state_reconciler c2ctx c2fs [1] c2cfg0 c2ps0 false c2fs [] h1 h2 h3).2.2.2.2.2.2.2 rfl⟩

/-! ## Installer model (subcommands/install.rs) -/

/-- A directory slot of the volatile workspace. -/
inductive DirNode where
  | dir
  | nonDir
deriving DecidableEq, Repr

/-- Observable file-system state of an avatar-cli project for the
installer: the three documents plus the volatile subdirectories bin, home
and images. -/
structure World where
  fs : Fs
  binDir : Option DirNode
  homeDir : Option DirNode
  imagesDir : Option DirNode
deriving DecidableEq, Repr

/-- External dependencies of install_subcommand: the reconciliation
oracles plus the system probes (SESSION_TOKEN env var, project-dir
lookup, which docker, which tar), the docker subprocesses (image inspect,
image pull, volume inspect) and, as an opaque effect trace, the
container-driven passwd generation of check_etc_passwd_files when its
images subdir was (re)created. -/
structure InstallCtx where
  rctx : ReconcileCtx
  sessionToken : Option String
  insideProject : Bool
  dockerAvailable : Bool
  tarAvailable : Bool
  inspectImage : String → Bool
  pullOk : String → Bool
  volumeExists : String → Bool
  passwdWork : ProjectConfigLock → List Effect

/-- Fully qualified references of the locked images in iteration order
(install.rs 352-358): name@sha256:hash for every tag entry. -/
def imageRefs (ps : ProjectConfigLock) : List String :=
  ps.images.bind (fun nt => nt.2.map (fun tc => nt.1 ++ "@sha256:" ++ tc.2.hash))

/-- Inspect-then-pull loop of check_oci_images_availability (install.rs
352-382), threading the changed flag; a failed pull exits UNAVAILABLE
(install.rs 739-741); docker invocation errors (OSERR) are not
modelled. -/
def check_images_loop (ctx : InstallCtx) : List String → Bool → List Effect →
    Except ExitErr (Bool × List Effect)
  | [], ch, tr => .ok (ch, tr)
  | r :: rs, ch, tr =>
    if ctx.inspectImage r then check_images_loop ctx rs ch tr
    else if ctx.pullOk r then check_images_loop ctx rs true (tr ++ [.pullImage r])
    else .error (Exitcode.unavailable, "Unable to pull OCI image " ++ r)

/-- Lean model of check_oci_images_availability (install.rs 342-385):
requires the docker client, inspects every locked image by digest and
pulls the missing ones, returning whether any image was pulled. -/
def check_oci_images_availability (ctx : InstallCtx) (ps : ProjectConfigLock) :
    Except ExitErr (Bool × List Effect) :=
  if ctx.dockerAvailable then check_images_loop ctx (imageRefs ps) false []
  else .error (Exitcode.unavailable, "docker client is not available")

/-- The managed volume names reachable from the lock binaries, in
iteration order (install.rs 305-315). -/
def lockVolumeNames (ps : ProjectConfigLock) : List String :=
  ps.binaries.bind (fun nb =>
    match nb.2.run_config with
    | none => []
    | some rc =>
      match rc.volumes with
      | none => []
      | some vcs => vcs.map (fun vc => vc.volume_name))

/-- Lean model of check_managed_volumes_availability together with
check_managed_volume_existence (install.rs 305-340): a volume that docker
volume inspect does not know is created (volume creation is assumed to
succeed; docker invocation errors, OSERR, are not modelled). -/
def check_managed_volumes_availability (ctx : InstallCtx) (ps : ProjectConfigLock) :
    List Effect :=
  (lockVolumeNames ps).bind (fun nm =>
    if ctx.volumeExists nm then [] else [.createVolume nm])

/-- Lean model of recreate_volatile_subdir (install.rs 772-808): an
existing non-directory exits USAGE; an existing directory is kept when
the state did not change (the caller then skips repopulation, the
returned Bool is false) and deleted and recreated otherwise; a missing
directory is created (removal and creation errors are not modelled). -/
def recreate_volatile_subdir (slot : Option DirNode) (subdir_name : String)
    (changed_state : Bool) :
    Except ExitErr (Option DirNode × Bool × List Effect) :=
  match slot with
  | some .nonDir =>
    .error (Exitcode.usage,
      "The path " ++ subdir_name ++ " must be a directory, but found something else")
  | some .dir =>
    if changed_state then
      .ok (some .dir, true, [.removeDir subdir_name, .createDir subdir_name])
    else
      .ok (some .dir, false, [])
  | none =>
    .ok (some .dir, true, [.createDir subdir_name])

/-- The binary names of the lock in iteration order (project_config.rs
270-274). -/
def get_binary_names (ps : ProjectConfigLock) : List String :=
  ps.binaries.map (fun nb => nb.1)

/-- Lean model of populate_volatile_bin_dir (install.rs 700-727): when the
bin subdir was (re)created, a symlink to the avatar binary is created for
every locked binary name (current_exe and symlink errors are not
modelled). -/
def populate_volatile_bin_dir (slot : Option DirNode) (ps : ProjectConfigLock)
    (changed_state : Bool) :
    Except ExitErr (Option DirNode × List Effect) :=
  match recreate_volatile_subdir slot "bin" changed_state with
  | .error e => .error e
  | .ok (slot2, proceed, tr) =>
    if proceed then
      .ok (slot2, tr ++ (get_binary_names ps).map Effect.createSymlink)
    else .ok (slot2, tr)

/-- Lean model of populate_volatile_home_dir (install.rs 729-731). -/
def populate_volatile_home_dir (slot : Option DirNode) (changed_state : Bool) :
    Except ExitErr (Option DirNode × List Effect) :=
  match recreate_volatile_subdir slot "home" changed_state with
  | .error e => .error e
  | .ok (slot2, _, tr) => .ok (slot2, tr)

/-- Lean model of check_etc_passwd_files (install.rs 70-303): without the
tar tool it only warns and returns; otherwise, when the images subdir was
(re)created, the per-image passwd generation runs (its docker and tar
interaction is the opaque passwdWork trace of the context). -/
def check_etc_passwd_files (ctx : InstallCtx) (slot : Option DirNode)
    (ps : ProjectConfigLock) (changed_state : Bool) :
    Except ExitErr (Option DirNode × List Effect) :=
  if ctx.tarAvailable then
    match recreate_volatile_subdir slot "images" changed_state with
    | .error e => .error e
    | .ok (slot2, proceed, tr) =>
      if proceed then .ok (slot2, tr ++ ctx.passwdWork ps)
      else .ok (slot2, tr)
  else .ok (slot, [])

/-- Lean model of install_subcommand (install.rs 646-698): refuse inside a
session (USAGE) or outside a project (USAGE), reconcile the documents,
check images and volumes, then populate bin, home and images gated on
pulled or changed. Returns the updated world, the project state, the
changed flag of the reconciler and the effect trace. -/
def install_subcommand (ctx : InstallCtx) (w : World) :
    Except ExitErr (World × ProjectConfigLock × Bool × List Effect) :=
  match ctx.sessionToken with
  | some _ => .error (Exitcode.usage, "You are already in an Avatar CLI session")
  | none =>
    if ctx.insideProject then
      match check_project_settings ctx.rctx w.fs with
      | .error e => .error e
      | .ok (ps, changed_state, fs2, tr0) =>
        match check_oci_images_availability ctx ps with
        | .error e => .error e
        | .ok (pulled, tr1) =>
          let tr2 := check_managed_volumes_availability ctx ps
          match populate_volatile_bin_dir w.binDir ps (pulled || changed_state) with
          | .error e => .error e
          | .ok (bin2, tr3) =>
            match populate_volatile_home_dir w.homeDir (pulled || changed_state) with
            | .error e => .error e
            | .ok (home2, tr4) =>
              match check_etc_passwd_files ctx w.imagesDir ps (pulled || changed_state) with
              | .error e => .error e
              | .ok (images2, tr5) =>
                .ok (⟨fs2, bin2, home2, images2⟩, ps, changed_state,
                  tr0 ++ tr1 ++ tr2 ++ tr3 ++ tr4 ++ tr5)
    else
      .error (Exitcode.usage,
        "The command was not executed inside an Avatar CLI project directory")

theorem check_project_settings_fresh {ctx : ReconcileCtx} {fs : Fs}
    {cb lb sb : List Nat} {cfg : ProjectConfig} {cl ps : ProjectConfigLock}
    (hc : fs.config = some (.regular cb))
    (hcp : ctx.parseConfig cb = some cfg)
    (hl : fs.lock = some (.regular lb))
    (hpl : ctx.parseLock lb = some cl)
    (hfresh : cl.project_config_hash = sha256 cb)
    (hs : fs.state = some (.regular sb))
    (hps : ctx.parseLock sb = some ps)
    (hfresh2 : ps.project_config_hash = sha256 lb) :
    check_project_settings ctx fs = .ok (ps, false, fs, []) := by
  have hget : get_config ctx fs.config "Avatarfile" = .ok (cfg, sha256 cb) := by
    rw [hc]
    simp [get_config, get_file_bytes, hcp]
  have hlock : lock_phase ctx fs cfg (sha256 cb) = .ok (cl, sha256 lb, false, fs, []) := by
    simp only [lock_phase, hl, hpl]
    rw [if_pos hfresh.symm]
  have hstate : state_phase ctx fs cl (sha256 lb) false [] = .ok (ps, false, fs, []) := by
    simp only [state_phase, hs, hps]
    rw [if_pos hfresh2.symm]
  simp only [check_project_settings, hget, hlock, hstate]

theorem check_images_loop_all_present (ctx : InstallCtx) (rs : List String) :
    ∀ (ch : Bool) (tr : List Effect),
      (∀ r, r ∈ rs → ctx.inspectImage r = true) →
      check_images_loop ctx rs ch tr = .ok (ch, tr) := by
  induction rs with
  | nil =>
    intro ch tr _
    rfl
  | cons r rs ih =>
    intro ch tr h
    have hr : ctx.inspectImage r = true := h r (List.mem_cons_self r rs)
    simp only [check_images_loop, hr, if_true]
    exact ih ch tr (fun x hx => h x (List.mem_cons_of_mem r hx))

theorem check_managed_volumes_all_present {ctx : InstallCtx} {ps : ProjectConfigLock}
    (h : ∀ nm, nm ∈ lockVolumeNames ps → ctx.volumeExists nm = true) :
    check_managed_volumes_availability ctx ps = [] := by
  rw [check_managed_volumes_availability]
  rw [List.bind_eq_nil]
  intro nm hnm
  rw [h nm hnm]
  simp

/-- C6: re-running install on an unchanged project is a no-op: with no
active session, inside a project, docker available, a fresh hash chain
(lock hash matches the manifest bytes, state hash matches the lock
bytes), every locked image inspectable, every managed volume existing and
the bin, home and images subdirs present as directories, the installer
reports changed = false, leaves the whole world (documents and
subdirectories) untouched and emits no effect at all: nothing is deleted,
recreated, symlinked, written or pulled, and no volume is created. -/
theorem c6_install_idempotent
    (ctx : InstallCtx) (w : World) (cb lb sb : List Nat) (cfg : ProjectConfig)
    (cl ps : ProjectConfigLock)
    (htok : ctx.sessionToken = none)
    (hin : ctx.insideProject = true)
    (hdocker : ctx.dockerAvailable = true)
    (hc : w.fs.config = some (.regular cb))
    (hcp : ctx.rctx.parseConfig cb = some cfg)
    (hl : w.fs.lock = some (.regular lb))
    (hpl : ctx.rctx.parseLock lb = some cl)
    (hfresh : cl.project_config_hash = sha256 cb)
    (hs : w.fs.state = some (.regular sb))
    (hps : ctx.rctx.parseLock sb = some ps)
    (hfresh2 : ps.project_config_hash = sha256 lb)
    (himg : ∀ r, r ∈ imageRefs ps → ctx.inspectImage r = true)
    (hvol : ∀ nm, nm ∈ lockVolumeNames ps → ctx.volumeExists nm = true)
    (hbin : w.binDir = some .dir)
    (hhome : w.homeDir = some .dir)
    (himages : w.imagesDir = some .dir) :
    install_subcommand ctx w = .ok (w, ps, false, []) := by
  obtain ⟨fs, bd, hd, imd⟩ := w
  simp only at hc hl hs hbin hhome himages
  subst hbin
  subst hhome
  subst himages
  have hcps : check_project_settings ctx.rctx fs = .ok (ps, false, fs, []) :=
    check_project_settings_fresh hc hcp hl hpl hfresh hs hps hfresh2
  have hio : check_oci_images_availability ctx ps = .ok (false, []) := by
    rw [check_oci_images_availability, if_pos hdocker]
    exact check_images_loop_all_present ctx (imageRefs ps) false [] himg
  have hvols : check_managed_volumes_availability ctx ps = [] :=
    check_managed_volumes_all_present hvol
  have hsub : ∀ nm, recreate_volatile_subdir (some DirNode.dir) nm false =
      .ok (some DirNode.dir, false, []) := by
    intro nm
    rfl
  have hbins : populate_volatile_bin_dir (some DirNode.dir) ps false =
      .ok (some DirNode.dir, []) := by
    simp only [populate_volatile_bin_dir, hsub "bin"]
    rfl
  have hhomes : populate_volatile_home_dir (some DirNode.dir) false =
      .ok (some DirNode.dir, []) := by
    simp only [populate_volatile_home_dir, hsub "home"]
  have hpass : check_etc_passwd_files ctx (some DirNode.dir) ps false =
      .ok (some DirNode.dir, []) := by
    cases htar : ctx.tarAvailable with
    | true =>
      rw [check_etc_passwd_files, if_pos htar]
      simp only [hsub "images"]
      rfl
    | false =>
      rw [check_etc_passwd_files, if_neg (by rw [htar]; exact Bool.false_ne_true)]
  simp only [install_subcommand, htok, hin, if_true, hcps, hio, hvols,
    Bool.or_self, hbins, hhomes, hpass, List.append_nil, List.nil_append]

/-- Concrete manifest for the C6 witness. -/
def c6cfg0 : ProjectConfig := ⟨"0.1", "pid6", none, none, none⟩

/-- Concrete fresh lock for the C6 witness. -/
def c6cl0 : ProjectConfigLock := ⟨sha256 [1], "pid6", none, [], []⟩

/-- Concrete fresh state for the C6 witness. -/
def c6ps0 : ProjectConfigLock := ⟨sha256 [2], "pid6", none, [], []⟩

/-- Concrete installer context for the C6 witness: no session, inside a
project, docker and tar available, every probe answers positively. -/
def c6ctx : InstallCtx :=
  ⟨⟨fun b => if b = [1] then some c6cfg0 else none,
    fun b => if b = [2] then some c6cl0 else if b = [3] then some c6ps0 else none,
    fun _ => [9],
    fun _ => .ok ([], [])⟩,
   none, true, true, true, fun _ => true, fun _ => true, fun _ => true, fun _ => []⟩

/-- Concrete installed world for the C6 witness. -/
def c6w : World :=
  ⟨⟨some (.regular [1]), some (.regular [2]), some (.regular [3]), true⟩,
   some .dir, some .dir, some .dir⟩

/-- Witness for C6: on the concrete installed world the second install
returns the same world, changed = false and an empty effect trace. -/
theorem c6_install_idempotent_witness :
    c6w.fs.lock = some (.regular [2]) ∧
    install_subcommand c6ctx c6w = .ok (c6w, c6ps0, false, []) := by
  refine ⟨rfl, ?_⟩
  exact c6_install_idempotent c6ctx c6w [1] [2] [3] c6cfg0 c6cl0 c6ps0
    rfl rfl rfl rfl (by decide) rfl (by decide) rfl rfl (by decide) rfl
    (fun r hr => by simp [imageRefs, c6ps0] at hr)
    (fun nm hnm => by simp [lockVolumeNames, c6ps0] at hnm)
    rfl rfl rfl

/-! ## Image-compilation retry model (install.rs 573-644, 733-770) -/

/-- Error message of docker.rs line 12 (backticks dropped). -/
def ERROR_MSG_DOCKER_INSPECT_OUTPUT : String :=
  "The command docker inspect returned an unexpected output"

/-- Inner loop of get_hash_from_repo_digests_str (install.rs 628-640):
for each digest line whose part before the at sign equals the image name,
return the part after the first colon, PROTOCOL if that part is missing
or no line matches. -/
def hash_from_repo_digests_loop (image_name : String) :
    List String → Except ExitErr String
  | [] => .error (Exitcode.protocol, ERROR_MSG_DOCKER_INSPECT_OUTPUT)
  | d :: ds =>
    match splitOnChar '@' d with
    | [] => hash_from_repo_digests_loop image_name ds
    | nm :: _ =>
      if nm = image_name then
        match (splitOnChar ':' d).get? 1 with
        | some h => .ok h
        | none => .error (Exitcode.protocol, ERROR_MSG_DOCKER_INSPECT_OUTPUT)
      else hash_from_repo_digests_loop image_name ds

/-- Lean model of get_hash_from_repo_digests_str (install.rs 625-644). -/
def get_hash_from_repo_digests_str (repo_digests_str : String) (image_name : String) :
    Except ExitErr String :=
  hash_from_repo_digests_loop image_name (splitOnChar '\n' (trimChars repo_digests_str))

/-- Outcome of the get_image_config_by_tag model, carrying how many pull
attempts were made; oracleExhausted is the designated value returned when
the inspect or pull oracle list runs out (it corresponds to no program
outcome: the Rust recursion is unbounded). -/
inductive ImageCfgResult where
  | ok (tag : String) (cfg : OCIImageTagConfigLock) (pullCount : Nat)
  | err (e : ExitErr) (pullCount : Nat)
  | oracleExhausted (pullCount : Nat)
deriving DecidableEq, Repr

/-- Number of pull attempts recorded in an outcome. -/
def pullCount : ImageCfgResult → Nat
  | .ok _ _ n => n
  | .err _ n => n
  | .oracleExhausted n => n

/-- Lean model of get_image_config_by_tag (install.rs 573-623) together
with pull_oci_image_by_fqn (733-770): inspect the image by name:tag; on
success parse the repo digests into the tag lock entry; on failure pull
once (a failed pull exits UNAVAILABLE) and recurse on the remaining
oracle outcomes. inspects holds the stdout of each successive docker
inspect (none = nonzero exit status), pulls the success of each
successive docker pull; n accumulates the pull attempts (docker
invocation errors, OSERR, and non-UTF8 output, PROTOCOL, are not
modelled). -/
def get_image_config_by_tag (image_name image_tag : String)
    (run_config : Option OCIContainerRunConfig) :
    List (Option String) → List Bool → Nat → ImageCfgResult
  | [], _, n => .oracleExhausted n
  | some stdout :: _, _, n =>
    match get_hash_from_repo_digests_str stdout image_name with
    | .ok h => .ok image_tag ⟨h, run_config⟩ n
    | .error e => .err e n
  | none :: rest, [], n => .oracleExhausted n
  | none :: rest, pok :: prest, n =>
    if pok then get_image_config_by_tag image_name image_tag run_config rest prest (n + 1)
    else .err (Exitcode.unavailable,
      "Unable to pull OCI image " ++ image_name ++ ":" ++ image_tag) (n + 1)

theorem get_image_config_by_tag_chain : ∀ (k n : Nat),
    get_image_config_by_tag "img" "t" none
      (List.replicate k none ++ [some "img@sha256:abc"]) (List.replicate k true) n =
      .ok "t" ⟨"abc", none⟩ (n + k)
  | 0, n => rfl
  | k + 1, n => by
    show get_image_config_by_tag "img" "t" none
      (none :: (List.replicate k none ++ [some "img@sha256:abc"]))
      (true :: List.replicate k true) n = .ok "t" ⟨"abc", none⟩ (n + (k + 1))
    rw [get_image_config_by_tag, if_pos rfl, get_image_config_by_tag_chain k (n + 1)]
    rw [Nat.add_assoc, Nat.add_comm 1 k]

/-- C7: on an inspect failure exactly one pull is attempted before
re-inspecting, and a pull failure terminates with UNAVAILABLE at once;
but the retry depth is unbounded: a successful inspect attempts no
further pull, a failed pull after a failed inspect is fatal UNAVAILABLE,
a successful pull after a failed inspect re-enters the whole procedure,
and for every k a run of k failed inspects with k successful pulls
performs k pull attempts and still succeeds. -/
theorem c7_pull_retry :
    (∀ (nm tg : String) (rc : Option OCIContainerRunConfig) (s : String)
       (rest : List (Option String)) (pulls : List Bool) (n : Nat),
       pullCount (get_image_config_by_tag nm tg rc (some s :: rest) pulls n) = n)
    ∧ (∀ (nm tg : String) (rc : Option OCIContainerRunConfig)
       (rest : List (Option String)) (prest : List Bool) (n : Nat),
       get_image_config_by_tag nm tg rc (none :: rest) (false :: prest) n =
         .err (Exitcode.unavailable, "Unable to pull OCI image " ++ nm ++ ":" ++ tg) (n + 1))
    ∧ (∀ (nm tg : String) (rc : Option OCIContainerRunConfig)
       (rest : List (Option String)) (prest : List Bool) (n : Nat),
       get_image_config_by_tag nm tg rc (none :: rest) (true :: prest) n =
         get_image_config_by_tag nm tg rc rest prest (n + 1))
    ∧ (∀ k : Nat,
       get_image_config_by_tag "img" "t" none
         (List.replicate k none ++ [some "img@sha256:abc"]) (List.replicate k true) 0 =
         .ok "t" ⟨"abc", none⟩ k) := by
  refine ⟨?_, ?_, ?_, ?_⟩
  · intro nm tg rc s rest pulls n
    rw [get_image_config_by_tag]
    cases get_hash_from_repo_digests_str s nm with
    | ok h => rfl
    | error e => rfl
  · intro nm tg rc rest prest n
    rw [get_image_config_by_tag, if_neg (by simp)]
  · intro nm tg rc rest prest n
    rw [get_image_config_by_tag, if_pos rfl]
  · intro k
    have h := get_image_config_by_tag_chain k 0
    rw [Nat.zero_add] at h
    exact h

/-- Counterexample for C7: two inspect failures in a row, each followed by
a successful pull, make two pull attempts and the call still succeeds on
the third inspect; the retry depth is not bounded by 1 and the second
inspect failure does not terminate with UNAVAILABLE. -/
theorem c7_counterexample :
    get_image_config_by_tag "a" "t" none [none, none, some "a@sha256:h"] [true, true] 0 =
      .ok "t" ⟨"h", none⟩ 2 := by decide

/-! ## Shim and run mode model (subcommands/run.rs 63-140) -/

/-- Constant of directories.rs line 11. -/
def AVATARFILE_NAME : String := "Avatarfile"

/-- Constant of directories.rs line 12. -/
def AVATARFILE_LOCK_NAME : String := "Avatarfile.lock"

/-- Constant of directories.rs line 13. -/
def CONFIG_DIR_NAME : String := ".avatar-cli"

/-- Constant of directories.rs line 14. -/
def CONTAINER_HOME_PATH : String := "/home/avatar-cli"

/-- Constant of directories.rs line 15. -/
def STATEFILE_NAME : String := "state.yml"

/-- Constant of directories.rs line 16. -/
def VOLATILE_DIR_NAME : String := "volatile"

/-- The manifest path, project_path/.avatar-cli/Avatarfile (run.rs 74). -/
def configPath (project_path : String) : String :=
  project_path ++ "/" ++ CONFIG_DIR_NAME ++ "/" ++ AVATARFILE_NAME

/-- The lock path, project_path/.avatar-cli/Avatarfile.lock (run.rs 80-82). -/
def configLockPath (project_path : String) : String :=
  project_path ++ "/" ++ CONFIG_DIR_NAME ++ "/" ++ AVATARFILE_LOCK_NAME

/-- The state path, project_path/.avatar-cli/volatile/state.yml (run.rs 89-92). -/
def statePath (project_path : String) : String :=
  project_path ++ "/" ++ CONFIG_DIR_NAME ++ "/" ++ VOLATILE_DIR_NAME ++ "/" ++ STATEFILE_NAME

/-- The broken-hash-chain message of run.rs 103-106 and 113-116
(apostrophes of the original dropped). -/
def hashMismatchMsg (a b : String) : String :=
  "The hash for the file " ++ a ++ " does not match with the one in " ++ b ++
    ", considering exiting the avatar subshell and entering again"

/-- Suffix of the three availability messages of run.rs 76, 85 and 94. -/
def notAvailableMsg : String :=
  " is not available anymore, please check if there is any background process modifying files in your project directory"

/-- Lean model of run (run.rs 63-140): check the working directory is
inside the project (check_if_inside_project_dir, directories.rs 37-53,
with the ancestors loop summarized by the inside flag), check the three
documents exist as regular files, read and hash them, enforce the two
hash-chain links (DATAERR with a message suggesting to exit and re-enter
the session), and look up the requested binary (a missing one exits with
raw code 1). Returns the locked binary configuration handed to
run_docker_command and the write-effect trace, which is empty on every
path: this code never regenerates or writes any document. -/
def runM (ctx : ReconcileCtx) (fs : Fs) (project_path current_dir : String)
    (used_program_name : String) (inside : Bool) :
    Except ExitErr ImageBinaryConfigLock × List Effect :=
  if inside then
    match fs.config with
    | some (.regular _) =>
      match fs.lock with
      | some (.regular _) =>
        match fs.state with
        | some (.regular _) =>
          match get_config ctx fs.config (configPath project_path) with
          | .error e => (.error e, [])
          | .ok (_, config_hash) =>
            match get_config_lock ctx fs.lock (configLockPath project_path) with
            | .error e => (.error e, [])
            | .ok (config_lock, config_lock_hash) =>
              if config_hash = config_lock.project_config_hash then
                match get_config_lock ctx fs.state (statePath project_path) with
                | .error e => (.error e, [])
                | .ok (project_state, _) =>
                  if config_lock_hash = project_state.project_config_hash then
                    match slookup used_program_name project_state.binaries with
                    | some c => (.ok c, [])
                    | none =>
                      (.error (1, "Binary " ++ used_program_name ++
                        " not properly configured in lock file " ++
                        statePath project_path), [])
                  else
                    (.error (Exitcode.dataerr,
                      hashMismatchMsg (configLockPath project_path)
                        (statePath project_path)), [])
              else
                (.error (Exitcode.dataerr,
                  hashMismatchMsg (configPath project_path)
                    (configLockPath project_path)), [])
        | _ =>
          (.error (Exitcode.noinput,
            "The project state file " ++ statePath project_path ++ notAvailableMsg), [])
      | _ =>
        (.error (Exitcode.noinput,
          "The config lock file " ++ configLockPath project_path ++ notAvailableMsg), [])
    | _ =>
      (.error (Exitcode.noinput,
        "The config file " ++ configPath project_path ++ notAvailableMsg), [])
  else
    (.error (Exitcode.usage,
      "The configured project directory is " ++ project_path ++
        ", but you are in " ++ current_dir), [])

/-- C8: in shim and run mode, a broken hash chain is fatal DATAERR with
the exit-and-re-enter message and nothing is written: if the manifest
hash differs from the hash recorded in the lock, or (first link holding)
the lock hash differs from the hash recorded in the state, run exits
DATAERR naming the two offending files, with an empty write-effect trace
(no manifest, lock or state file is regenerated or written on this
path). -/
theorem c8_hash_chain_guard
    (ctx : ReconcileCtx) (fs : Fs) (pp cd prog : String)
    (cb lb sb : List Nat) (cfg : ProjectConfig) (cl ps : ProjectConfigLock)
    (hc : fs.config = some (.regular cb))
    (hcp : ctx.parseConfig cb = some cfg)
    (hl : fs.lock = some (.regular lb))
    (hpl : ctx.parseLock lb = some cl)
    (hs : fs.state = some (.regular sb))
    (hps : ctx.parseLock sb = some ps) :
    (sha256 cb ≠ cl.project_config_hash →
      runM ctx fs pp cd prog true =
        (.error (Exitcode.dataerr,
          hashMismatchMsg (configPath pp) (configLockPath pp)), []))
    ∧ (sha256 cb = cl.project_config_hash →
       sha256 lb ≠ ps.project_config_hash →
      runM ctx fs pp cd prog true =
        (.error (Exitcode.dataerr,
          hashMismatchMsg (configLockPath pp) (statePath pp)), [])) := by
  have hget : get_config ctx (some (FileNode.regular cb)) (configPath pp) =
      .ok (cfg, sha256 cb) := by
    simp [get_config, get_file_bytes, hcp]
  have hgetl : get_config_lock ctx (some (FileNode.regular lb)) (configLockPath pp) =
      .ok (cl, sha256 lb) := by
    simp [get_config_lock, get_file_bytes, hpl]
  have hgets : get_config_lock ctx (some (FileNode.regular sb)) (statePath pp) =
      .ok (ps, sha256 sb) := by
    simp [get_config_lock, get_file_bytes, hps]
  constructor
  · intro hne
    simp only [runM, if_true, hc, hl, hs, hget, hgetl]
    rw [if_neg hne]
  · intro heq hne
    simp only [runM, if_true, hc, hl, hs, hget, hgetl, hgets]
    rw [if_pos heq, if_neg hne]

/-- Concrete manifest for the C8 witness. -/
def c8cfg0 : ProjectConfig := ⟨"0.1", "pid8", none, none, none⟩

/-- Concrete lock for the C8 witness: its recorded hash matches the
manifest bytes, so the first chain link holds. -/
def c8cl0 : ProjectConfigLock := ⟨sha256 [1], "pid8", none, [], []⟩

/-- Concrete stale state for the C8 witness: its recorded hash does not
match the lock bytes. -/
def c8ps0 : ProjectConfigLock := ⟨[0], "pid8", none, [], []⟩

/-- Concrete codec oracles for the C8 witness. -/
def c8ctx : ReconcileCtx :=
  ⟨fun b => if b = [1] then some c8cfg0 else none,
   fun b => if b = [2] then some c8cl0 else if b = [3] then some c8ps0 else none,
   fun _ => [9],
   fun _ => .ok ([], [])⟩

/-- Concrete documents for the C8 witness. -/
def c8fs : Fs := ⟨some (.regular [1]), some (.regular [2]), some (.regular [3]), true⟩

/-- Witness for C8: with a fresh lock but a stale state, run exits DATAERR
naming the lock and state files and writes nothing. -/
theorem c8_hash_chain_guard_witness :
    runM c8ctx c8fs "/p" "/p/sub" "x" true =
      (.error (Exitcode.dataerr, hashMismatchMsg (configLockPath "/p") (statePath "/p")),
        []) := by
  exact (c8_hash_chain_guard c8ctx c8fs "/p" "/p/sub" "x" [1] [2] [3] c8cfg0 c8cl0 c8ps0
    rfl (by decide) rfl (by decide) rfl (by decide)).2 rfl (by decide)

/-! ## User argument transformation (subcommands/run.rs 293-315) -/

/-- The normal components of a path string: split on slashes, dropping
empty components and single dots, as Rust Path::components does. -/
def pathComponents (s : String) : List String :=
  (splitOnChar '/' s).filter (fun c => !(c == "") && !(c == "."))

/-- Modelled from the spec: is_inside_project_dir is imported by run.rs
(line 19) from the directories module but is absent from this source
snapshot. Spec section 4.I item 12 reads the test as the argument lying
inside the project root P; modelled as the project-path components being
a prefix of the argument components, matching the ancestors loop of
check_if_inside_project_dir (directories.rs 37-53) and the strip_prefix
call that follows it in transform_command_args. -/
def is_inside_project_dir (project_path arg : String) : Bool :=
  List.isPrefixOf (pathComponents project_path) (pathComponents arg)

/-- Lean model of the per-argument closure of transform_command_args
(run.rs 300-313): an absolute path inside the project root is stripped of
the project components and re-joined under /playground; anything else
passes through unchanged (the non-UTF8 to_str fallback is not
modelled). -/
def transformArg (project_path : String) (arg : String) : String :=
  if path_is_relative arg then arg
  else if is_inside_project_dir project_path arg then
    "/" ++ String.intercalate "/"
      ("playground" :: (pathComponents arg).drop (pathComponents project_path).length)
  else arg

/-- Lean model of transform_command_args (run.rs 293-315) applied to the
user arguments argv[skip_args..]: each is transformed independently. -/
def transform_command_args (project_path : String) (args : List String) : List String :=
  args.map (transformArg project_path)

/-- C9: every user argument after the skipped argv positions is forwarded
independently; a non-absolute argument is unchanged; an argument outside
the project root (in particular every absolute path outside it) is
unchanged; and an absolute argument inside the project root P is
rewritten to /playground/(relpath(P, arg)), where relpath is the
component suffix of the argument after the components of P. -/
theorem c9_arg_rewrite :
    (∀ (pp : String) (args : List String),
       transform_command_args pp args = args.map (transformArg pp))
    ∧ (∀ (pp a : String), path_is_relative a = true → transformArg pp a = a)
    ∧ (∀ (pp a : String), is_inside_project_dir pp a = false → transformArg pp a = a)
    ∧ (∀ (pp a : String), path_is_relative a = false →
         is_inside_project_dir pp a = true →
         ∃ rel, pathComponents a = pathComponents pp ++ rel ∧
           transformArg pp a = "/" ++ String.intercalate "/" ("playground" :: rel)) := by
  refine ⟨?_, ?_, ?_, ?_⟩
  · intro pp args
    rfl
  · intro pp a hrel
    simp [transformArg, hrel]
  · intro pp a hout
    simp [transformArg, hout]
  · intro pp a hrel hin
    have hpre : pathComponents pp <+: pathComponents a := by
      rw [← List.isPrefixOf_iff_prefix]
      exact hin
    obtain ⟨rel, hrelp⟩ := hpre
    refine ⟨rel, hrelp.symm, ?_⟩
    simp only [transformArg, hrel, hin]
    rw [← hrelp, List.drop_left]
    simp

/-- Witness for C9: the concrete absolute argument /p/x/y inside the
project root /p is rewritten onto /playground, and the absolute argument
/q/z outside it passes through unchanged. -/
theorem c9_arg_rewrite_witness :
    (∃ rel, pathComponents "/p/x/y" = pathComponents "/p" ++ rel ∧
       transformArg "/p" "/p/x/y" = "/" ++ String.intercalate "/" ("playground" :: rel))
    ∧ transformArg "/p" "/q/z" = "/q/z" := by
  constructor
  · exact c9_arg_rewrite.2.2.2 "/p" "/p/x/y" (by decide) (by decide)
  · exact c9_arg_rewrite.2.2.1 "/p" "/q/z" (by decide)

/-! ## Container invocation model (subcommands/run.rs 142-291) -/

/-- Constant of avatar_env.rs line 11. -/
def SESSION_TOKEN : String := "AVATAR_CLI_SESSION_TOKEN"

/-- Modelled from the spec: PROCESS_ID is imported by run.rs (line 17)
from avatar_env but absent from this source snapshot; the spec publishes
all session variables with the AVATAR_CLI_ prefix. -/
def PROCESS_ID : String := "AVATAR_CLI_PROCESS_ID"

/-- Modelled from the spec: PROJECT_INTERNAL_ID is imported by run.rs
(line 17) from avatar_env but absent from this source snapshot; the spec
publishes all session variables with the AVATAR_CLI_ prefix. -/
def PROJECT_INTERNAL_ID : String := "AVATAR_CLI_PROJECT_INTERNAL_ID"

/-- Host-side runtime facts consumed by run_docker_command: docker lookup,
terminal detection on stdin and stdout, the host environment, the current
uid and gid and the freshly sampled 16-char process token. -/
structure RunCtx where
  dockerAvailable : Bool
  stdinTty : Bool
  stdoutTty : Bool
  hostEnv : String → Option String
  uid : Nat
  gid : Nat
  processId : String

/-- Static env loop of run_docker_command (run.rs 163-173): one
--env K=V pair per frozen entry, USAGE on the key PATH. -/
def pushEnvEntries : EnvMap → Except ExitErr (List String)
  | [] => .ok []
  | (k, v) :: rest =>
    if k = "PATH" then .error (Exitcode.usage, ERROR_MSG_FORBIDDEN_PATH_ENV_VAR)
    else
      match pushEnvEntries rest with
      | .error e => .error e
      | .ok args => .ok ("--env" :: (k ++ "=" ++ v) :: args)

/-- Host-env pass-through loop of run_docker_command (run.rs 175-188):
forward each named host variable when set, USAGE on the name PATH. -/
def pushHostEnvEntries (hostEnv : String → Option String) :
    List String → Except ExitErr (List String)
  | [] => .ok []
  | k :: rest =>
    if k = "PATH" then .error (Exitcode.usage, ERROR_MSG_FORBIDDEN_PATH_ENV_VAR)
    else
      match pushHostEnvEntries hostEnv rest with
      | .error e => .error e
      | .ok args =>
        match hostEnv k with
        | some v => .ok ("--env" :: (k ++ "=" ++ v) :: args)
        | none => .ok args

/-- The dynamic env args of run_docker_command (run.rs 160-188): static
entries then host pass-through entries, both absent when the binary has
no frozen run config. -/
def dynamicEnvArgs (hostEnv : String → Option String) :
    Option OCIContainerRunConfigLock → Except ExitErr (List String)
  | none => .ok []
  | some rc =>
    match pushEnvEntries (rc.env.getD []) with
    | .error e => .error e
    | .ok a1 =>
      match pushHostEnvEntries hostEnv (rc.env_from_host.getD []) with
      | .error e => .error e
      | .ok a2 => .ok (a1 ++ a2)

/-- The dynamic mount args of run_docker_command (run.rs 190-210):
--volume name:path per managed volume then one bind --mount per
binding. -/
def dynamicMountArgs : Option OCIContainerRunConfigLock → List String
  | none => []
  | some rc =>
    (match rc.volumes with
     | none => []
     | some vcs => vcs.bind (fun vc =>
        ["--volume", vc.volume_name ++ ":" ++ vc.container_path])) ++
    (match rc.bindings with
     | none => []
     | some bs => bs.bind (fun cb =>
        ["--mount", "type=bind,source=" ++ cb.2 ++ ",target=" ++ cb.1]))

/-- The working directory relative to the project root (run.rs 212-219):
strip_prefix modelled on path components, SOFTWARE when the current dir
is not under the project path. -/
def stripWorkdir (project_path current_dir : String) : Except ExitErr String :=
  if List.isPrefixOf (pathComponents project_path) (pathComponents current_dir) then
    .ok (String.intercalate "/"
      ((pathComponents current_dir).drop (pathComponents project_path).length))
  else
    .error (Exitcode.software,
      "A precondition of run_docker_command does not hold: working directory inside project directory")

/-- Lean model of run_docker_command (run.rs 142-291): require docker
(UNAVAILABLE), then assemble the docker argv in source order: run flags,
interactivity, dynamic env (PATH rejected with USAGE), name, labels,
session env vars, user, playground and home mounts, workdir, dynamic
mounts, user-integration args (an oracle of the host environment, run.rs
317 on), image reference, program path and the transformed user args.
The returned argv stands for the exec that replaces the process; an error
means no container is ever launched. -/
def run_docker_command (ctx : RunCtx) (bc : ImageBinaryConfigLock)
    (current_dir project_path project_internal_id session_token : String)
    (userArgs userIntegrationArgs : List String) :
    Except ExitErr (List String) :=
  if ctx.dockerAvailable then
    match dynamicEnvArgs ctx.hostEnv bc.run_config with
    | .error e => .error e
    | .ok denv =>
      match stripWorkdir project_path current_dir with
      | .error e => .error e
      | .ok wd =>
        .ok (["run", "--rm", "--init", "-i"] ++
          (if ctx.stdinTty && ctx.stdoutTty then ["-t"] else []) ++
          denv ++
          ["--name",
            (pathComponents project_path).getLastD "xxx" ++ "_" ++
              (pathComponents bc.path).getLastD "yyy" ++ "_" ++
              project_internal_id ++ "_" ++ session_token ++ "_" ++ ctx.processId,
           "--label", "managed_tool.container_role.avatar-cli",
           "--label", project_internal_id ++ ".byid.projects.avatar-cli",
           "--env", PROCESS_ID ++ "=" ++ ctx.processId,
           "--env", PROJECT_INTERNAL_ID ++ "=" ++ project_internal_id,
           "--env", SESSION_TOKEN ++ "=" ++ session_token,
           "--user", toString ctx.uid ++ ":" ++ toString ctx.gid,
           "--mount", "type=bind,source=" ++ project_path ++ ",target=/playground",
           "--workdir", "/playground/" ++ wd,
           "--mount", "type=bind,source=" ++ project_path ++ "/" ++ CONFIG_DIR_NAME ++
             "/" ++ VOLATILE_DIR_NAME ++ "/home,target=" ++ CONTAINER_HOME_PATH,
           "--env", "HOME=" ++ CONTAINER_HOME_PATH] ++
          dynamicMountArgs bc.run_config ++
          userIntegrationArgs ++
          [bc.oci_image_name ++ "@sha256:" ++ bc.oci_image_hash] ++
          [bc.path] ++
          transform_command_args project_path userArgs)
  else .error (Exitcode.unavailable, "docker client is not available")

theorem pushEnvEntries_path_error {v : String} : ∀ {m : EnvMap},
    ("PATH", v) ∈ m →
    pushEnvEntries m = .error (Exitcode.usage, ERROR_MSG_FORBIDDEN_PATH_ENV_VAR) := by
  intro m h
  induction m with
  | nil => cases h
  | cons kv rest ih =>
    obtain ⟨k, w⟩ := kv
    rcases List.mem_cons.1 h with he | hm
    · have hk : k = "PATH" := (Prod.ext_iff.1 he.symm).1
      rw [pushEnvEntries, if_pos hk]
    · by_cases hk : k = "PATH"
      · rw [pushEnvEntries, if_pos hk]
      · rw [pushEnvEntries, if_neg hk, ih hm]

theorem mem_of_slookup_eq_some {k v : String} : ∀ {m : EnvMap},
    slookup k m = some v → (k, v) ∈ m := by
  intro m h
  induction m with
  | nil => exact absurd h (by simp [slookup])
  | cons kv rest ih =>
    obtain ⟨j, w⟩ := kv
    by_cases hk : k = j
    · rw [slookup, if_pos hk] at h
      injection h with h
      exact List.mem_cons.2 (Or.inl (by rw [hk, h]))
    · rw [slookup, if_neg hk] at h
      exact List.mem_cons.2 (Or.inr (ih h))

/-- C10: a frozen env entry with key PATH is fatal at invocation time:
run_docker_command (docker present) exits USAGE with the forbidden-PATH
message before assembling an argv, so no container is launched; and the
lock compiler itself produces exactly such an entry for every binary
merged with a shell config whose extra_paths is present while the image
reports a PATH variable, so such a binary can never be invoked from the
lock the compiler produced for it. -/
theorem c10_frozen_path_fatal :
    (∀ (ctx : RunCtx) (bc : ImageBinaryConfigLock)
       (cd pp pid st : String) (uargs uiargs : List String)
       (rc : OCIContainerRunConfigLock) (m : EnvMap) (v : String),
       ctx.dockerAvailable = true →
       bc.run_config = some rc →
       rc.env = some m →
       ("PATH", v) ∈ m →
       run_docker_command ctx bc cd pp pid st uargs uiargs =
         .error (Exitcode.usage, ERROR_MSG_FORBIDDEN_PATH_ENV_VAR))
    ∧ (∀ (ctx : RunCtx) (bc : ImageBinaryConfigLock)
       (cd pp pid st : String) (uargs uiargs : List String)
       (base new2 : Option OCIContainerRunConfig) (sc : ShellConfig)
       (mpid nm tg ih bn : String) (eps : List String) (p : String)
       (r : OCIContainerRunConfigLock),
       ctx.dockerAvailable = true →
       sc.extra_paths = some eps →
       merge_run_and_shell_configs base new2 (some sc) mpid nm tg ih bn (some p) =
         .ok (some r) →
       bc.run_config = some r →
       run_docker_command ctx bc cd pp pid st uargs uiargs =
         .error (Exitcode.usage, ERROR_MSG_FORBIDDEN_PATH_ENV_VAR)) := by
  have main : ∀ (ctx : RunCtx) (bc : ImageBinaryConfigLock)
      (cd pp pid st : String) (uargs uiargs : List String)
      (rc : OCIContainerRunConfigLock) (m : EnvMap) (v : String),
      ctx.dockerAvailable = true →
      bc.run_config = some rc →
      rc.env = some m →
      ("PATH", v) ∈ m →
      run_docker_command ctx bc cd pp pid st uargs uiargs =
        .error (Exitcode.usage, ERROR_MSG_FORBIDDEN_PATH_ENV_VAR) := by
    intro ctx bc cd pp pid st uargs uiargs rc m v hdocker hrc henv hmem
    have hpush : pushEnvEntries (rc.env.getD []) =
        .error (Exitcode.usage, ERROR_MSG_FORBIDDEN_PATH_ENV_VAR) := by
      rw [henv]
      exact pushEnvEntries_path_error hmem
    have hdyn : dynamicEnvArgs ctx.hostEnv bc.run_config =
        .error (Exitcode.usage, ERROR_MSG_FORBIDDEN_PATH_ENV_VAR) := by
      rw [hrc]
      simp only [dynamicEnvArgs, hpush]
    rw [run_docker_command, if_pos hdocker]
    simp only [hdyn]
  constructor
  · exact main
  · intro ctx bc cd pp pid st uargs uiargs base new2 sc mpid nm tg ih bn eps p r
      hdocker he hok hrc
    have hlook := merge_shell_path_synthesis base new2 sc mpid nm tg ih bn eps p r he hok
    cases henv : r.env with
    | none =>
      rw [henv] at hlook
      exact absurd hlook (by simp [olookup])
    | some m =>
      rw [henv] at hlook
      have hmem : ("PATH", customize_oci_image_path_env_var p eps) ∈ m :=
        mem_of_slookup_eq_some hlook
      exact main ctx bc cd pp pid st uargs uiargs r m _ hdocker hrc henv hmem

/-- Concrete shell config for the C10 witness: extra paths present, no
shell env. -/
def c10sc : ShellConfig := ⟨none, some ["q"]⟩

/-- The frozen run config the compiler produces for the C10 witness: the
single synthesized PATH entry. -/
def c10r : OCIContainerRunConfigLock :=
  ⟨some [("PATH", customize_oci_image_path_env_var "/bin" ["q"])], none, none, none, none⟩

/-- Concrete locked binary for the C10 witness. -/
def c10bc : ImageBinaryConfigLock := ⟨"img", "h", "x", some c10r⟩

/-- Concrete runtime facts for the C10 witness. -/
def c10ctx : RunCtx := ⟨true, false, false, fun _ => none, 0, 0, "tok"⟩

/-- Witness for C10: the compiler output for a shell config with extra
paths and a reported image PATH, frozen into a binary, is rejected with
USAGE by run_docker_command. -/
theorem c10_frozen_path_fatal_witness :
    merge_run_and_shell_configs none none (some c10sc) "P" "n" "t" "h" "b" (some "/bin") =
      .ok (some c10r) ∧
    run_docker_command c10ctx c10bc "/p/w" "/p" "pid" "st" [] [] =
      .error (Exitcode.usage, ERROR_MSG_FORBIDDEN_PATH_ENV_VAR) := by
  constructor
  · decide
  · exact c10_frozen_path_fatal.2 c10ctx c10bc "/p/w" "/p" "pid" "st" [] []
      none none c10sc "P" "n" "t" "h" "b" ["q"] "/bin" c10r
      rfl rfl (by decide) rfl

end Avatar
